import Mathlib

/-!
Verification of the reminder/time-zone engine of the tgdailybot mini-app
(`src/app.js`, reminder-aware variant).  JavaScript strings are modelled as
`List Char`, JavaScript numbers that can be `NaN` as `Option Int` (all numeric
values arising in this code are integers when they are not `NaN`), `null` as a
separate constructor where it can flow, and a thrown `RangeError` as
`Except.error ()`.  The platform time-zone formatter (`Intl.DateTimeFormat`)
is a black-box collaborator modelled as a function from timestamps to
wall-clock components; the eleven supported zones are fixed-offset zones
(UTC+2 … UTC+12), as the spec and the `RU_TIMEZONES` labels state.
-/

namespace TgDaily

/-! ## JavaScript string primitives -/

/-- Characters treated as whitespace by `String.prototype.trim` and
`Number.parseInt` (the subset that can occur in this app's inputs). -/
def isJsSpace (c : Char) : Bool := c = ' ' || c = '\t' || c = '\n' || c = '\r'

/-- Model of `String.prototype.split` with a one-character separator:
`"".split(t)` is `[""]`, separators at the ends produce empty pieces. -/
def jsSplit (sep : Char) : List Char → List (List Char)
  | [] => [[]]
  | c :: rest =>
    match jsSplit sep rest with
    | [] => [[]]
    | g :: gs => if c = sep then [] :: g :: gs else (c :: g) :: gs

/-- Numeric value of a decimal digit character. -/
def digitVal (c : Char) : Nat := c.toNat - 48

/-- Horner accumulation over the leading run of decimal digits; stops at the
first non-digit, like `Number.parseInt`. -/
def foldDigits : List Char → Nat → Nat
  | [], acc => acc
  | c :: rest, acc => if c.isDigit then foldDigits rest (10 * acc + digitVal c) else acc

/-- Leading decimal-digit run of a string as a number; `none` when the string
does not start with a digit (`parseInt` returns `NaN` then). -/
def leadingNat (s : List Char) : Option Nat :=
  match s with
  | c :: _ => if c.isDigit then some (foldDigits s 0) else none
  | [] => none

/-- Model of `Number.parseInt(s, 10)`: skip leading whitespace, optional sign,
then the leading digit run; `none` models `NaN`. -/
def parseIntJS (s : List Char) : Option Int :=
  match s.dropWhile isJsSpace with
  | '-' :: rest => (leadingNat rest).map (fun n => -(n : Int))
  | '+' :: rest => (leadingNat rest).map (fun n => (n : Int))
  | t => (leadingNat t).map (fun n => (n : Int))

/-- Model of `String.prototype.trim`. -/
def jsTrim (s : List Char) : List Char :=
  ((s.dropWhile isJsSpace).reverse.dropWhile isJsSpace).reverse

/-- Model of `String.prototype.replace` with one-character pattern and
replacement: only the first occurrence is replaced. -/
def replaceFirstChar (pat repl : Char) : List Char → List Char
  | [] => []
  | c :: rest => if c = pat then repl :: rest else c :: replaceFirstChar pat repl rest

/-- Decimal digits of a natural number, most significant first
(`String(n)` for a non-negative integer). -/
def natDigits (n : Nat) : List Char :=
  if h : n < 10 then [Char.ofNat (48 + n)]
  else natDigits (n / 10) ++ [Char.ofNat (48 + n % 10)]
decreasing_by exact Nat.div_lt_self (by omega) (by omega)

/-- Model of `String(n)` for an integer-valued JavaScript number. -/
def jsIntToString (n : Int) : List Char :=
  if n < 0 then '-' :: natDigits (-n).toNat else natDigits n.toNat

/-- Model of `String(n).padStart(2, "0")` as used in `formatForReminderPrompt`. -/
def pad2 (n : Int) : List Char :=
  let s := jsIntToString n
  if s.length < 2 then List.replicate (2 - s.length) '0' ++ s else s

/-! ## Proleptic-Gregorian calendar arithmetic

`Date.UTC` and the wall-clock components reported by `Intl.DateTimeFormat`
follow the ECMAScript proleptic-Gregorian calendar.  The day numbering
(days since 1970-01-01) is computed with the standard civil-calendar
conversion; `civilFromDays` is its inverse. -/

/-- Day number (days since the epoch 1970-01-01) of year `y`, month
`m ∈ [1,12]`, shifted by `d - 1` days (`d` need not lie inside the month:
ECMAScript `MakeDay` adds the date field arithmetically). -/
def daysFromCivil (y m d : Int) : Int :=
  let y' := if m ≤ 2 then y - 1 else y
  let era := y' / 400
  let yoe := y' - era * 400
  let mp := if 2 < m then m - 3 else m + 9
  let doy := (153 * mp + 2) / 5 + d - 1
  let doe := yoe * 365 + yoe / 4 - yoe / 100 + doy
  era * 146097 + doe - 719468

/-- Inverse of `daysFromCivil`: the civil date `(year, month, day)` of a day
number. -/
def civilFromDays (z : Int) : Int × Int × Int :=
  let doe := (z + 719468) % 146097
  let era := (z + 719468) / 146097
  let yoe := (doe - doe / 1460 + doe / 36524 - doe / 146096) / 365
  let y := yoe + era * 400
  let doy := doe - (365 * yoe + yoe / 4 - yoe / 100)
  let mp := (5 * doy + 2) / 153
  let d := doy - (153 * mp + 2) / 5 + 1
  let m := if mp < 10 then mp + 3 else mp - 9
  (if m ≤ 2 then y + 1 else y, m, d)

/-- Largest representable ECMAScript time value (`8.64e15` ms); `Date.UTC`
clips to `NaN` outside `[-timeMax, timeMax]`. -/
def timeMax : Int := 8640000000000000

/-- Time value of `Date.UTC(y, mIdx, d, h, mi, s)` before clipping:
ECMAScript `MakeFullYear` (an integer year argument in `[0, 99]` is mapped
to `1900 + year`) followed by
`MakeDate(MakeDay(yr, mIdx, d), MakeTime(h, mi, s, 0))`.
`mIdx` is a zero-based month index, normalised with floor division as the
standard prescribes. -/
def dateUTCraw (y mIdx d h mi s : Int) : Int :=
  let yr := if 0 ≤ y ∧ y ≤ 99 then 1900 + y else y
  let ym := yr + mIdx / 12
  let mn := mIdx % 12
  (daysFromCivil ym (mn + 1) 1 + (d - 1)) * 86400000
    + h * 3600000 + mi * 60000 + s * 1000

/-- Model of `Date.UTC(y, mIdx, d, h, mi, s)`: the raw time value clipped to
the representable range, `none` modelling `NaN`. -/
def dateUTC (y mIdx d h mi s : Int) : Option Int :=
  let t := dateUTCraw y mIdx d h mi s
  if -timeMax ≤ t ∧ t ≤ timeMax then some t else none

/-! ## Zone model and the conversion chain -/

/-- Wall-clock components assembled by `getZoneParts` from
`Intl.DateTimeFormat(...).formatToParts`. -/
structure ZoneParts where
  year : Int
  month : Int
  day : Int
  hour : Int
  minute : Int
  second : Int
deriving DecidableEq, Repr

/-- A platform time-zone formatter, as a black box: the wall-clock components
it reports for each valid timestamp. -/
abbrev ZoneFormatter := Int → ZoneParts

/-- Wall-clock components of the UTC timestamp `x` read directly in UTC. -/
def msToZoneParts (x : Int) : ZoneParts :=
  let days := x / 86400000
  let tod := x % 86400000
  let c := civilFromDays days
  { year := c.1, month := c.2.1, day := c.2.2,
    hour := tod / 3600000, minute := tod % 3600000 / 60000,
    second := tod % 60000 / 1000 }

/-- A fixed-offset zone: wall clock = instant + offset.  The spec notes that
all eleven supplied zones are fixed-offset. -/
def fixedZone (offMs : Int) : ZoneFormatter := fun t => msToZoneParts (t + offMs)

/-- The eleven supported zone identifiers (`RU_TIMEZONES` in src/app.js). -/
def supportedZoneIds : List String :=
  ["Europe/Kaliningrad", "Europe/Moscow", "Europe/Samara", "Asia/Yekaterinburg",
   "Asia/Omsk", "Asia/Krasnoyarsk", "Asia/Irkutsk", "Asia/Yakutsk",
   "Asia/Vladivostok", "Asia/Magadan", "Asia/Kamchatka"]

/-- UTC offset in hours of each supported zone, from the `RU_TIMEZONES`
labels (platform time-zone data for these zones, which are fixed-offset). -/
def zoneOffsetHoursOf (id : String) : Int :=
  if id = "Europe/Kaliningrad" then 2
  else if id = "Europe/Moscow" then 3
  else if id = "Europe/Samara" then 4
  else if id = "Asia/Yekaterinburg" then 5
  else if id = "Asia/Omsk" then 6
  else if id = "Asia/Krasnoyarsk" then 7
  else if id = "Asia/Irkutsk" then 8
  else if id = "Asia/Yakutsk" then 9
  else if id = "Asia/Vladivostok" then 10
  else if id = "Asia/Magadan" then 11
  else 12

/-- The platform formatter of a supported zone. -/
def zoneFormatterOf (id : String) : ZoneFormatter :=
  fixedZone (zoneOffsetHoursOf id * 3600000)

/-- The Moscow formatter (UTC+3), used for concrete evaluations. -/
def moscowZone : ZoneFormatter := fixedZone 10800000

/-- Model of `getZoneParts(timestamp, timeZone)` (src/app.js:430-456):
`new Date(timestamp)` followed by `formatToParts`.  Formatting throws a
`RangeError` (modelled `.error ()`) when the timestamp is `NaN` (`none`)
or outside the representable range. -/
def getZonePartsE (zp : ZoneFormatter) : Option Int → Except Unit ZoneParts
  | none => .error ()
  | some t => if -timeMax ≤ t ∧ t ≤ timeMax then .ok (zp t) else .error ()

/-- Model of `zoneOffsetMs(timeZone, timestamp)` (src/app.js:458-462):
the zone's wall-clock components of `timestamp` reinterpreted as UTC, minus
`timestamp`; `none` models a `NaN` offset (clipped `Date.UTC`). -/
def zoneOffsetMsE (zp : ZoneFormatter) : Option Int → Except Unit (Option Int)
  | none => .error ()
  | some t =>
    match getZonePartsE zp (some t) with
    | .error e => .error e
    | .ok p =>
      .ok ((dateUTC p.year (p.month - 1) p.day p.hour p.minute p.second).map
        (fun asUtc => asUtc - t))

/-- JavaScript subtraction on possibly-`NaN` numbers. -/
def jsSub (a b : Option Int) : Option Int :=
  match a, b with
  | some x, some y => some (x - y)
  | _, _ => none

/-- The `for (let i = 0; i < 3; ...)` refinement loop of `zonedLocalToUtcMs`:
`result = utcGuess - zoneOffsetMs(timeZone, result)`, `n` iterations left. -/
def convLoop (zp : ZoneFormatter) (utcGuess : Option Int) :
    Nat → Option Int → Except Unit (Option Int)
  | 0, result => .ok result
  | n + 1, result =>
    match zoneOffsetMsE zp result with
    | .error e => .error e
    | .ok off => convLoop zp utcGuess n (jsSub utcGuess off)

/-- Return value of `zonedLocalToUtcMs` as a JavaScript value: `null`
(parse failure), `NaN`, or a finite number. -/
inductive JsRet where
  | jsNull
  | nan
  | num (v : Int)
deriving DecidableEq, Repr

/-- The decomposition phase of `zonedLocalToUtcMs` (src/app.js:465-470):
split on `T` (empty or missing parts are falsy and rejected), split the date
on `-` and the time on `:`, `parseInt` each piece, and require all five
components finite (a missing component is `undefined`, also not finite). -/
def parseDateTimeParts (s : List Char) : Option (Int × Int × Int × Int × Int) :=
  let pieces := jsSplit 'T' s
  match pieces.get? 0, pieces.get? 1 with
  | some datePart, some timePart =>
    if datePart = [] ∨ timePart = [] then none
    else
      let dNums := (jsSplit '-' datePart).map parseIntJS
      let tNums := (jsSplit ':' timePart).map parseIntJS
      match (dNums.get? 0).join, (dNums.get? 1).join, (dNums.get? 2).join,
            (tNums.get? 0).join, (tNums.get? 1).join with
      | some year, some month, some day, some hour, some minute =>
        some (year, month, day, hour, minute)
      | _, _, _, _, _ => none
  | _, _ => none

/-- Model of `zonedLocalToUtcMs(datetimeValue, timeZone)` (src/app.js:464-478)
with the platform formatter for `timeZone` abstracted as `zp`.  A thrown
`RangeError` is `.error ()`. -/
def zonedLocalToUtcMs (zp : ZoneFormatter) (datetimeValue : List Char) :
    Except Unit JsRet :=
  match parseDateTimeParts datetimeValue with
  | none => .ok .jsNull
  | some (year, month, day, hour, minute) =>
    let utcGuess := dateUTC year (month - 1) day hour minute 0
    match convLoop zp utcGuess 3 utcGuess with
    | .error e => .error e
    | .ok none => .ok .nan
    | .ok (some v) => .ok (.num v)

/-- String building of `formatForReminderPrompt` (src/app.js:480-488) applied
to given wall-clock components; this is the spec's `format(y, m, d, h, min)`
(`YYYY-MM-DD HH:MM`, year unpadded, the rest padded to two digits). -/
def formatComponents (y m d h mi : Int) : List Char :=
  jsIntToString y ++ '-' :: (pad2 m ++ '-' :: (pad2 d ++ ' ' :: (pad2 h ++ ':' :: pad2 mi)))

/-! ## Data model and operations -/

/-- A task record (src/app.js:530-537 and `normalizeTask`). `reminderAt` and
`notifiedFor` are nullable epoch-millisecond instants. -/
structure Task where
  id : Nat
  text : List Char
  done : Bool
  createdAt : Int
  reminderAt : Option Int
  notifiedFor : Option Int
deriving DecidableEq, Repr

/-- The settings record (src/app.js:235-239). -/
structure Settings where
  timezone : String
  notificationsEnabled : Bool
  notifyBeforeMinutes : Int
deriving DecidableEq, Repr

/-- Model of `clampInt(value, min, max, fallback)` (src/app.js:293-299);
`value` is the string `String(value)` that `Number.parseInt` receives. -/
def clampInt (value : List Char) (min max fallback : Int) : Int :=
  match parseIntJS value with
  | none => fallback
  | some num => if num < min then min else if num > max then max else num

/-- Model of `loadSettings` (src/app.js:282-291).  `rawTimezone` is the stored
`timezone` field when it is a string (`Map.has` is false for any non-string
value, folded into `none`); `rawNotifyBefore` is `String(raw.notifyBeforeMinutes)`;
`rawEnabled` is `Boolean(raw.notificationsEnabled)`. -/
def loadSettings (rawTimezone : Option String) (rawNotifyBefore : List Char)
    (rawEnabled : Bool) : Settings :=
  { timezone := match rawTimezone with
      | some tz => if supportedZoneIds.contains tz then tz else "Europe/Moscow"
      | none => "Europe/Moscow"
    notificationsEnabled := rawEnabled
    notifyBeforeMinutes := clampInt rawNotifyBefore 0 120 0 }

/-- Body of the `for` loop of `checkReminders` (src/app.js:661-676) for one
task: skip when `task.done || !task.reminderAt` (`null` and `0` are falsy),
skip while `now < triggerAt`, skip when `task.notifiedFor === triggerAt`;
otherwise emit the reminder and record `notifiedFor = triggerAt`.  Returns the
updated task and whether it fired. -/
def checkTaskStep (leadMs now : Int) (t : Task) : Task × Bool :=
  match t.reminderAt with
  | none => (t, false)
  | some r =>
    if t.done ∨ r = 0 then (t, false)
    else
      let triggerAt := r - leadMs
      if now < triggerAt then (t, false)
      else if t.notifiedFor = some triggerAt then (t, false)
      else ({ t with notifiedFor := some triggerAt }, true)

/-- One pass of `checkReminders` (src/app.js:654-682): a no-op when
`notificationsEnabled` is false, otherwise the loop body over every task;
the second component is the `changed` flag. -/
def checkRemindersPass (enabled : Bool) (leadMs now : Int) (tasks : List Task) :
    List Task × Bool :=
  if enabled then
    let stepped := tasks.map (checkTaskStep leadMs now)
    (stepped.map Prod.fst, stepped.any Prod.snd)
  else (tasks, false)

/-- A sequence of reminder-check passes over one task (the poll loop observed
by a single task, with no intervening mutation), counting how many passes
fired. -/
def runChecks (leadMs : Int) : List Int → Task → Task × Nat
  | [], t => (t, 0)
  | now :: rest, t =>
    let s := checkTaskStep leadMs now t
    let r := runChecks leadMs rest s.1
    (r.1, (if s.2 then 1 else 0) + r.2)

/-- Model of `toggleTask` (src/app.js:544-554) applied to the found task:
set `done`, and clear `notifiedFor` when completing. -/
def toggleTaskStep (done : Bool) (t : Task) : Task :=
  let t1 := { t with done := done }
  if done then { t1 with notifiedFor := none } else t1

/-- Result object of `parseReminderPromptValue` / `currentReminderInputToUtc`. -/
inductive ParsedReminder where
  | parseErr
  | okNone
  | okVal (v : Int)
deriving DecidableEq, Repr

deriving instance DecidableEq for Except

/-- Model of `parseReminderPromptValue(value)` (src/app.js:490-500) for zone
formatter `zp`: empty input means "remove the reminder"; a space-separated
input is normalised to the `T` form (first space only); the conversion result
must be finite. -/
def parseReminderPromptValue (zp : ZoneFormatter) (value : List Char) :
    Except Unit ParsedReminder :=
  let trimmed := jsTrim value
  if trimmed = [] then .ok .okNone
  else
    let normalized := if trimmed.contains 'T' then trimmed
                      else replaceFirstChar ' ' 'T' trimmed
    match zonedLocalToUtcMs zp normalized with
    | .error e => .error e
    | .ok (.num v) => .ok (.okVal v)
    | .ok _ => .ok .parseErr

/-- Model of `currentReminderInputToUtc` (src/app.js:502-511): like the prompt
parser but without space normalisation (the input field already uses `T`). -/
def currentReminderInputToUtc (zp : ZoneFormatter) (inputValue : List Char) :
    Except Unit ParsedReminder :=
  let raw := jsTrim inputValue
  if raw = [] then .ok .okNone
  else
    match zonedLocalToUtcMs zp raw with
    | .error e => .error e
    | .ok (.num v) => .ok (.okVal v)
    | .ok _ => .ok .parseErr

/-- The guard `reminder.value && reminder.value < Date.now()` shared by
`addTask` and `editTask`: `null` and `0` are falsy, so only a truthy (nonzero,
non-null) instant strictly before `now` is rejected. -/
def pastGuard (value : Option Int) (now : Int) : Bool :=
  match value with
  | some v => decide (v ≠ 0) && decide (v < now)
  | none => false

/-- Outcome of `addTask`. -/
inductive AddOutcome where
  | errored
  | threw
  | added
deriving DecidableEq, Repr

/-- Model of `addTask` (src/app.js:513-542): reject empty text, reject a
failed reminder parse, reject a truthy reminder instant strictly before `now`
(`if (reminder.value && reminder.value < Date.now())`), otherwise prepend the
new task.  Every rejection leaves the task list unchanged. -/
def addTask (zp : ZoneFormatter) (textInput reminderInput : List Char) (now : Int)
    (freshId : Nat) (tasks : List Task) : AddOutcome × List Task :=
  let text := jsTrim textInput
  if text = [] then (.errored, tasks)
  else
    match currentReminderInputToUtc zp reminderInput with
    | .error _ => (.threw, tasks)
    | .ok .parseErr => (.errored, tasks)
    | .ok pr =>
      let value : Option Int := match pr with | .okVal v => some v | _ => none
      if pastGuard value now then
        (.errored, tasks)
      else
        (.added,
         { id := freshId, text := text.take 300, done := false, createdAt := now,
           reminderAt := value, notifiedFor := none } :: tasks)

/-- Outcome of `editTask` on the found task. -/
inductive EditOutcome where
  | cancelled
  | errored
  | threw
  | updated (t : Task)
deriving DecidableEq, Repr

/-- Model of `editTask` (src/app.js:562-601) applied to the found task.
`nextText` and `rawReminder` are the two prompt results (`none` = cancelled
prompt).  A cancelled reminder prompt keeps the existing `reminderAt`; every
successful edit clears `notifiedFor`; every rejection leaves the task
untouched. -/
def editTask (zp : ZoneFormatter) (t : Task) (nextText : Option (List Char))
    (rawReminder : Option (List Char)) (now : Int) : EditOutcome :=
  match nextText with
  | none => .cancelled
  | some nt =>
    let trimmedText := jsTrim nt
    if trimmedText = [] then .errored
    else
      match rawReminder with
      | none => .updated { t with text := trimmedText.take 300, notifiedFor := none }
      | some rr =>
        match parseReminderPromptValue zp rr with
        | .error _ => .threw
        | .ok .parseErr => .errored
        | .ok pr =>
          let value : Option Int := match pr with | .okVal v => some v | _ => none
          if pastGuard value now then
            .errored
          else
            .updated { t with text := trimmedText.take 300, reminderAt := value,
                              notifiedFor := none }

/-- Model of the `notify-before` change handler (src/app.js:736-742): clamp
and store the new lead, then immediately run `checkReminders`; the handler
itself never touches any task's `notifiedFor`. -/
def onNotifyBeforeChange (inputValue : List Char) (s : Settings)
    (tasks : List Task) (now : Int) : Settings × List Task :=
  let s2 := { s with notifyBeforeMinutes := clampInt inputValue 0 120 0 }
  (s2, (checkRemindersPass s2.notificationsEnabled (s2.notifyBeforeMinutes * 60000)
          now tasks).1)

/-! ## Spec-side definitions (written from the spec's words, for refinement
claims) -/

/-- Spec section 4.4 contract `computeTrigger(reminderAt, leadMinutes)`. -/
def computeTrigger (reminderAt leadMinutes : Int) : Int :=
  reminderAt - leadMinutes * 60000

/-- Spec section 4.4 `shouldFire(task, now, leadMinutes)`, written from the
spec's words, not from the code: true iff `reminderAt` is set, `done` is
false, `now` has reached the trigger, and `notifiedFor` differs from the
trigger. -/
def shouldFireSpec (t : Task) (now leadMinutes : Int) : Bool :=
  match t.reminderAt with
  | none => false
  | some r =>
    !t.done && decide (computeTrigger r leadMinutes ≤ now)
      && decide (t.notifiedFor ≠ some (computeTrigger r leadMinutes))

/-! ## Concrete tasks used in counterexamples and witnesses -/

/-- A live task whose reminder is the epoch instant 0 (JavaScript-falsy). -/
def taskEpochReminder : Task :=
  { id := 0, text := ['x'], done := false, createdAt := 0,
    reminderAt := some 0, notifiedFor := none }

/-- A live task with a reminder one minute after the epoch, never notified. -/
def taskLive : Task :=
  { id := 0, text := ['x'], done := false, createdAt := 0,
    reminderAt := some 60000, notifiedFor := none }

/-- A completed task with a reminder set. -/
def taskDone : Task :=
  { id := 1, text := ['a'], done := true, createdAt := 0,
    reminderAt := some 5000, notifiedFor := none }

/-- A task that has already been notified for trigger instant 1000000
(computed with lead 0 from `reminderAt = 1000000`). -/
def taskNotified : Task :=
  { id := 2, text := ['b'], done := false, createdAt := 0,
    reminderAt := some 1000000, notifiedFor := some 1000000 }

/-- Settings with notifications on and no lead time. -/
def settingsEnabled : Settings :=
  { timezone := "Europe/Moscow", notificationsEnabled := true,
    notifyBeforeMinutes := 0 }

/-! ## Derived calendar notions and zone sanity -/

/-- Gregorian leap year. -/
def isLeap (y : Int) : Bool :=
  (y % 4 = 0 && y % 100 != 0) || y % 400 = 0

/-- Number of days of month `m` of year `y` (`m ∈ [1,12]`). -/
def daysInMonth (y m : Int) : Int :=
  if m = 2 then (if isLeap y then 29 else 28)
  else if m = 4 ∨ m = 6 ∨ m = 9 ∨ m = 11 then 30 else 31

/-- The pure value computed by `zoneOffsetMs` when nothing clips or throws:
the zone's wall-clock components of `t` reinterpreted as UTC, minus `t`. -/
def zoneOffsetPure (zp : ZoneFormatter) (t : Int) : Int :=
  dateUTCraw (zp t).year ((zp t).month - 1) (zp t).day (zp t).hour (zp t).minute
    (zp t).second - t

/-- Bound on real-world zone offsets (14 hours in milliseconds). -/
def offsetBound : Int := 50400000

/-- Epoch milliseconds of 0100-01-01T00:00Z (`daysFromCivil 100 1 1 = -683003`
days).  Below this instant a zone's wall-clock year can lie in `[0, 99]`,
where `Date.UTC`'s `MakeFullYear` remaps the reinterpreted year to
`1900 + year` and the offset computation jumps by about nineteen
centuries. -/
def yearHundredMs : Int := -59011459200000

/-- A zone formatter is sane when, on every timestamp from the start of
year 100 up to the largest representable time value, the reinterpreted wall
clock differs from the timestamp by at most 14 hours (true of every
nonnegative-offset platform zone; below year 100 `MakeFullYear` breaks this
for every zone). -/
def ZoneSane (zp : ZoneFormatter) : Prop :=
  ∀ t : Int, yearHundredMs ≤ t → t ≤ timeMax →
    -offsetBound ≤ zoneOffsetPure zp t ∧ zoneOffsetPure zp t ≤ offsetBound

/-- The spec's fixed-point refinement, unrolled: starting from the naive
guess `g`, exactly three iterations of `guess = g - offsetMs(zone, guess)`. -/
def threeIterationResult (zp : ZoneFormatter) (g : Int) : Int :=
  let g1 := g - zoneOffsetPure zp g
  let g2 := g - zoneOffsetPure zp g1
  g - zoneOffsetPure zp g2

/-! ## Lemmas about the reminder check -/

theorem checkTaskStep_of_not_fired (leadMs now : Int) (t : Task)
    (h : (checkTaskStep leadMs now t).2 = false) :
    (checkTaskStep leadMs now t).1 = t := by
  unfold checkTaskStep at h ⊢
  rcases ht : t.reminderAt with _ | r
  · simp [ht]
  · simp only [ht] at h ⊢
    split_ifs at h ⊢ <;> simp_all

theorem checkTaskStep_fired_iff (leadMs now : Int) (t : Task) :
    (checkTaskStep leadMs now t).2 = true ↔
      ∃ r, t.reminderAt = some r ∧ r ≠ 0 ∧ t.done = false ∧ r - leadMs ≤ now ∧
        t.notifiedFor ≠ some (r - leadMs) := by
  unfold checkTaskStep
  rcases ht : t.reminderAt with _ | r
  · simp [ht]
  · simp only [ht, Option.some.injEq]
    split_ifs with h1 h2 h3
    · constructor
      · intro hf; simp at hf
      · rintro ⟨r', rfl, hz, hd, hle, hne⟩
        rcases h1 with h | h <;> simp_all
    · constructor
      · intro hf; simp at hf
      · rintro ⟨r', rfl, hz, hd, hle, hne⟩
        exact absurd hle (by omega)
    · constructor
      · intro hf; simp at hf
      · rintro ⟨r', rfl, hz, hd, hle, hne⟩
        exact absurd h3 hne
    · rcases not_or.mp h1 with ⟨hd, hz⟩
      constructor
      · intro _
        exact ⟨r, rfl, hz, by simpa using hd, by omega, h3⟩
      · intro _; rfl

theorem checkTaskStep_of_fired (leadMs now : Int) (t : Task)
    (h : (checkTaskStep leadMs now t).2 = true) :
    ∃ r, t.reminderAt = some r ∧ r ≠ 0 ∧ t.done = false ∧ r - leadMs ≤ now ∧
      t.notifiedFor ≠ some (r - leadMs) ∧
      (checkTaskStep leadMs now t).1 = { t with notifiedFor := some (r - leadMs) } := by
  obtain ⟨r, hr, hz, hd, hle, hne⟩ := (checkTaskStep_fired_iff leadMs now t).mp h
  refine ⟨r, hr, hz, hd, hle, hne, ?_⟩
  unfold checkTaskStep
  simp only [hr]
  split_ifs with h1 h2
  · rcases h1 with h | h <;> simp_all
  · exact absurd hle (by omega)
  · rfl

theorem shouldFireSpec_true_iff (t : Task) (now leadMinutes : Int) :
    shouldFireSpec t now leadMinutes = true ↔
      ∃ r, t.reminderAt = some r ∧ t.done = false ∧
        computeTrigger r leadMinutes ≤ now ∧
        t.notifiedFor ≠ some (computeTrigger r leadMinutes) := by
  unfold shouldFireSpec
  rcases ht : t.reminderAt with _ | r
  · simp [ht]
  · simp [ht, and_assoc]

theorem checkTaskStep_suppressed (leadMs now : Int) (t : Task) (r : Int)
    (h1 : t.reminderAt = some r) (h2 : t.notifiedFor = some (r - leadMs)) :
    checkTaskStep leadMs now t = (t, false) := by
  unfold checkTaskStep
  simp only [h1]
  split_ifs <;> simp_all

theorem runChecks_suppressed (leadMs : Int) (nows : List Int) (t : Task) (r : Int)
    (h1 : t.reminderAt = some r) (h2 : t.notifiedFor = some (r - leadMs)) :
    runChecks leadMs nows t = (t, 0) := by
  induction nows with
  | nil => rfl
  | cons now rest ih =>
    unfold runChecks
    rw [checkTaskStep_suppressed leadMs now t r h1 h2]
    simp [ih]

/-! ## Claim theorems -/

/-- C1, counterexample to the claim as stated.  The spec's `shouldFire`
contract says the check fires iff `reminderAt` is set, `done` is false, `now`
has reached the trigger and `notifiedFor` differs from the trigger.  A task
whose `reminderAt` is the epoch instant `0` has its reminder set, yet
`!task.reminderAt` is true in JavaScript (0 is falsy), so `checkReminders`
skips it: at `reminderAt = some 0`, `notifiedFor = none`, `now = 0`,
`leadMinutes = 0` the spec predicate is true but the code does not fire. -/
theorem claim1_counterexample :
    shouldFireSpec taskEpochReminder 0 0 = true ∧
    (checkTaskStep (0 * 60000) 0 taskEpochReminder).2 = false := by
  decide

/-- C1 (amended): the reminder check fires for a task if and only if the
spec's `shouldFire` predicate holds and additionally the stored reminder
instant is not the JavaScript-falsy value `0`; on firing it sets
`notifiedFor` to the computed trigger instant. -/
theorem claim1_amended (t : Task) (now leadMinutes : Int) :
    ((checkTaskStep (leadMinutes * 60000) now t).2 =
      (shouldFireSpec t now leadMinutes && !(t.reminderAt == some 0))) ∧
    ((checkTaskStep (leadMinutes * 60000) now t).2 = true →
      ∃ r, t.reminderAt = some r ∧
        (checkTaskStep (leadMinutes * 60000) now t).1 =
          { t with notifiedFor := some (computeTrigger r leadMinutes) }) := by
  constructor
  · rw [Bool.eq_iff_iff]
    rw [checkTaskStep_fired_iff]
    simp only [Bool.and_eq_true, shouldFireSpec_true_iff, bne_iff_ne, ne_eq,
      computeTrigger]
    constructor
    · rintro ⟨r, hr, hz, hd, hle, hne⟩
      exact ⟨⟨r, hr, hd, hle, hne⟩, by simp [hr, hz]⟩
    · rintro ⟨⟨r, hr, hd, hle, hne⟩, hz⟩
      refine ⟨r, hr, ?_, hd, hle, hne⟩
      rintro rfl
      simp [hr] at hz
  · intro h
    obtain ⟨r, hr, _, _, _, _, hupd⟩ := checkTaskStep_of_fired _ _ _ h
    exact ⟨r, hr, hupd⟩

/-- Witness for C1 (amended) at a concrete input: a live task whose trigger
has been reached fires and records the trigger instant. -/
theorem claim1_witness :
    ∃ r, taskLive.reminderAt = some r ∧
      (checkTaskStep (0 * 60000) 60000 taskLive).1 =
        { taskLive with notifiedFor := some (computeTrigger r 0) } :=
  (claim1_amended taskLive 60000 0).2 (by decide)

/-- C2 (confirmed): for a fixed `reminderAt` and lead time, across any
sequence of reminder-check passes (modelled by `runChecks`, which feeds each
pass's task back into the next with no intervening mutation), the fire logic
executes at most once: after a pass fires, `notifiedFor` stores the trigger
and every later pass evaluates the same trigger and skips. -/
theorem claim2_confirmed (leadMinutes : Int) (nows : List Int) (t : Task) :
    (runChecks (leadMinutes * 60000) nows t).2 ≤ 1 := by
  induction nows generalizing t with
  | nil => simp [runChecks]
  | cons now rest ih =>
    show (if (checkTaskStep (leadMinutes * 60000) now t).2 = true then 1 else 0) +
        (runChecks (leadMinutes * 60000) rest
          (checkTaskStep (leadMinutes * 60000) now t).1).2 ≤ 1
    rcases hfired : (checkTaskStep (leadMinutes * 60000) now t).2 with _ | _
    · rw [checkTaskStep_of_not_fired _ _ _ hfired]
      simpa using ih t
    · obtain ⟨r, hr, -, -, -, -, hupd⟩ := checkTaskStep_of_fired _ _ _ hfired
      rw [hupd]
      rw [runChecks_suppressed (leadMinutes * 60000) rest _ r (by simp [hr]) (by simp)]
      simp

/-- C6 (confirmed): a completed task is skipped unchanged by every
reminder-check pass (so no notification can fire while it remains done), and
`toggleTask` with `done = true` both marks the task done and clears
`notifiedFor`. -/
theorem claim6_confirmed (t : Task) (now leadMs : Int) :
    (t.done = true → checkTaskStep leadMs now t = (t, false)) ∧
    (toggleTaskStep true t).done = true ∧
    (toggleTaskStep true t).notifiedFor = none := by
  refine ⟨fun hdone => ?_, by simp [toggleTaskStep], by simp [toggleTaskStep]⟩
  unfold checkTaskStep
  rcases ht : t.reminderAt with _ | r <;> simp [ht, hdone]

/-- Witness for C6 at a concrete input: a done task with a reachable trigger
is skipped unchanged. -/
theorem claim6_witness :
    checkTaskStep 0 99999999 taskDone = (taskDone, false) :=
  (claim6_confirmed taskDone 99999999 0).1 rfl

/-- C5, counterexample to the claim as stated.  The claim says every candidate
reminder instant strictly before the current instant is rejected.  The guard
`if (reminder.value && reminder.value < Date.now())` skips the comparison when
the candidate is the falsy instant `0`: entering `1970-01-01T03:00` (Moscow
wall clock of the epoch) at `now = 1` parses to the instant `0`, which is
strictly before `now`, yet `addTask` accepts it and mutates the task list. -/
theorem claim5_counterexample :
    currentReminderInputToUtc moscowZone ("1970-01-01T03:00".toList) =
      .ok (.okVal 0) ∧
    ((0 : Int) < 1) ∧
    addTask moscowZone ("x".toList) ("1970-01-01T03:00".toList) 1 7 [] =
      (.added,
        [{ id := 7, text := ['x'], done := false, createdAt := 1,
           reminderAt := some 0, notifiedFor := none }]) := by
  decide

/-- C5 (amended): at creation and at edit, every *nonzero* parsed candidate
instant strictly before `now` is rejected with a user-facing error and the
state is unchanged (for `addTask` the returned list is the input list; for
`editTask` the outcome is the error outcome, which applies no update); a
candidate at or after `now` is not rejected by this check.  The epoch
instant `0` escapes the check because it is JavaScript-falsy (see the
counterexample). -/
theorem claim5_amended (zp : ZoneFormatter) (textInput reminderInput nt rr : List Char)
    (now : Int) (freshId : Nat) (tasks : List Task) (t : Task) :
    (∀ v, currentReminderInputToUtc zp reminderInput = .ok (.okVal v) → v ≠ 0 →
      v < now → jsTrim textInput ≠ [] →
      addTask zp textInput reminderInput now freshId tasks = (.errored, tasks)) ∧
    (∀ v, currentReminderInputToUtc zp reminderInput = .ok (.okVal v) → now ≤ v →
      jsTrim textInput ≠ [] →
      (addTask zp textInput reminderInput now freshId tasks).1 = .added) ∧
    (∀ v, parseReminderPromptValue zp rr = .ok (.okVal v) → v ≠ 0 → v < now →
      jsTrim nt ≠ [] →
      editTask zp t (some nt) (some rr) now = .errored) ∧
    (∀ v, parseReminderPromptValue zp rr = .ok (.okVal v) → now ≤ v →
      jsTrim nt ≠ [] →
      editTask zp t (some nt) (some rr) now =
        .updated { t with text := (jsTrim nt).take 300, reminderAt := some v,
                          notifiedFor := none }) := by
  refine ⟨?_, ?_, ?_, ?_⟩
  · intro v hv hz hlt htext
    unfold addTask
    simp only [hv, if_neg htext]
    have hg : pastGuard (some v) now = true := by simp [pastGuard, hz, hlt]
    simp [hg]
  · intro v hv hle htext
    unfold addTask
    simp only [hv, if_neg htext]
    have hg : pastGuard (some v) now = false := by
      simp [pastGuard]
      omega
    simp [hg]
  · intro v hv hz hlt htext
    unfold editTask
    simp only [hv, if_neg htext]
    have hg : pastGuard (some v) now = true := by simp [pastGuard, hz, hlt]
    simp [hg]
  · intro v hv hle htext
    unfold editTask
    simp only [hv, if_neg htext]
    have hg : pastGuard (some v) now = false := by
      simp [pastGuard]
      omega
    simp [hg]

/-- Witness for C5 (amended) at concrete inputs: a reminder one day after the
epoch is rejected when `now` is far later, and accepted when `now` is 0. -/
theorem claim5_witness :
    addTask moscowZone ("x".toList) ("1970-01-02T03:00".toList) 99999999999 7 [] =
      (.errored, []) ∧
    (addTask moscowZone ("x".toList) ("1970-01-02T03:00".toList) 0 7 []).1 =
      .added := by
  constructor
  · exact (claim5_amended moscowZone ("x".toList) ("1970-01-02T03:00".toList)
      ("x".toList) ("x".toList) 99999999999 7 [] taskLive).1 86400000
      (by decide) (by decide) (by decide) (by decide)
  · exact (claim5_amended moscowZone ("x".toList) ("1970-01-02T03:00".toList)
      ("x".toList) ("x".toList) 0 7 [] taskLive).2.1 86400000
      (by decide) (by decide) (by decide)

/-- C7, counterexample to the claim as stated.  The claim says `notifiedFor`
is reset to null by every operation that changes the global lead time in a
way that invalidates the stored trigger.  The `notify-before` change handler
(src/app.js:736-742) stores the clamped lead and re-runs `checkReminders`,
but never clears `notifiedFor`: with a task already notified for trigger
1000000 (lead 0) and the lead changed to 10 minutes (new trigger 400000, so
the stored trigger is invalidated) at `now = 0`, the stored value survives
unchanged instead of being reset to null. -/
theorem claim7_counterexample :
    (onNotifyBeforeChange ("10".toList) settingsEnabled [taskNotified] 0).1.notifyBeforeMinutes
        = 10 ∧
    (onNotifyBeforeChange ("10".toList) settingsEnabled [taskNotified] 0).2 =
      [taskNotified] ∧
    taskNotified.notifiedFor = some 1000000 ∧
    taskNotified.reminderAt = some 1000000 := by
  decide

/-- C7 (amended): `notifiedFor`, when the reminder check sets it, is exactly
the trigger instant `reminderAt - leadMs` computed at firing time; it is
cleared by every successful edit and by completing the task.  A lead-time
change does **not** clear it: the change handler leaves each task's
`notifiedFor` untouched unless the immediate re-check fires, in which case it
stores the trigger computed from the *new* lead, so a stale stored value can
never suppress a different new trigger. -/
theorem claim7_amended (zp : ZoneFormatter) (t : Task) (nt rr : Option (List Char))
    (leadMs now : Int) :
    ((checkTaskStep leadMs now t).2 = true →
      ∃ r, t.reminderAt = some r ∧
        (checkTaskStep leadMs now t).1.notifiedFor = some (r - leadMs)) ∧
    (∀ t2, editTask zp t nt rr now = .updated t2 → t2.notifiedFor = none) ∧
    ((toggleTaskStep true t).notifiedFor = none) ∧
    (∀ input s tasks now2 (i : Nat) (told : Task), tasks[i]? = some told →
      ∃ tnew : Task, ((onNotifyBeforeChange input s tasks now2).2)[i]? = some tnew ∧
        (tnew.notifiedFor = told.notifiedFor ∨
          ∃ r, told.reminderAt = some r ∧
            tnew.notifiedFor = some (r - clampInt input 0 120 0 * 60000))) := by
  refine ⟨?_, ?_, by simp [toggleTaskStep], ?_⟩
  · intro h
    obtain ⟨r, hr, -, -, -, -, hupd⟩ := checkTaskStep_of_fired _ _ _ h
    exact ⟨r, hr, by rw [hupd]⟩
  · intro t2 h
    unfold editTask at h
    repeat' first
      | split at h
      | simp only [] at h
    all_goals
      first
        | (simp only [EditOutcome.updated.injEq] at h
           subst h
           rfl)
        | simp at h
  · intro input s tasks now2 i told htold
    unfold onNotifyBeforeChange checkRemindersPass
    by_cases he : s.notificationsEnabled
    · simp only [he, if_pos]
      refine ⟨(checkTaskStep (clampInt input 0 120 0 * 60000) now2 told).1, ?_, ?_⟩
      · rw [List.map_map, List.getElem?_map, htold]
        rfl
      · rcases hfired : (checkTaskStep (clampInt input 0 120 0 * 60000) now2 told).2
        · left
          rw [checkTaskStep_of_not_fired _ _ _ hfired]
        · right
          obtain ⟨r, hr, -, -, -, -, hupd⟩ := checkTaskStep_of_fired _ _ _ hfired
          exact ⟨r, hr, by rw [hupd]⟩
    · simp only [Bool.not_eq_true] at he
      simp only [he, Bool.false_eq_true, if_false]
      exact ⟨told, htold, Or.inl rfl⟩

/-- Witness for C7 (amended) at a concrete input: firing with lead 60000 ms
records the trigger `reminderAt - 60000`. -/
theorem claim7_witness :
    ∃ r, taskLive.reminderAt = some r ∧
      (checkTaskStep 60000 60000 taskLive).1.notifiedFor = some (r - 60000) :=
  (claim7_amended moscowZone taskLive none none 60000 60000).1 (by decide)

/-- C9 (confirmed): `loadSettings` always yields a timezone in the supported
set of eleven identifiers, falling back to `Europe/Moscow` on a missing or
unsupported stored value, and a `notifyBeforeMinutes` that is an integer in
`[0, 120]` — when the stored value's `parseInt` image is below the range it
is clamped to 0, above the range to 120, in range kept, and a value with no
parseable integer (`NaN`) becomes the fallback 0. -/
theorem claim9_confirmed (rawTimezone : Option String) (rawNotifyBefore : List Char)
    (rawEnabled : Bool) :
    supportedZoneIds.length = 11 ∧
    (loadSettings rawTimezone rawNotifyBefore rawEnabled).timezone ∈ supportedZoneIds ∧
    ((∀ tz, rawTimezone = some tz → tz ∉ supportedZoneIds) →
      (loadSettings rawTimezone rawNotifyBefore rawEnabled).timezone = "Europe/Moscow") ∧
    0 ≤ (loadSettings rawTimezone rawNotifyBefore rawEnabled).notifyBeforeMinutes ∧
    (loadSettings rawTimezone rawNotifyBefore rawEnabled).notifyBeforeMinutes ≤ 120 ∧
    (parseIntJS rawNotifyBefore = none →
      (loadSettings rawTimezone rawNotifyBefore rawEnabled).notifyBeforeMinutes = 0) ∧
    (∀ n, parseIntJS rawNotifyBefore = some n → n < 0 →
      (loadSettings rawTimezone rawNotifyBefore rawEnabled).notifyBeforeMinutes = 0) ∧
    (∀ n, parseIntJS rawNotifyBefore = some n → 120 < n →
      (loadSettings rawTimezone rawNotifyBefore rawEnabled).notifyBeforeMinutes = 120) ∧
    (∀ n, parseIntJS rawNotifyBefore = some n → 0 ≤ n → n ≤ 120 →
      (loadSettings rawTimezone rawNotifyBefore rawEnabled).notifyBeforeMinutes = n) := by
  have htz : ∀ s1 : Option String,
      (loadSettings s1 rawNotifyBefore rawEnabled).timezone =
        (match s1 with
          | some tz => if supportedZoneIds.contains tz then tz else "Europe/Moscow"
          | none => "Europe/Moscow") := fun _ => rfl
  have hnb : (loadSettings rawTimezone rawNotifyBefore rawEnabled).notifyBeforeMinutes =
      clampInt rawNotifyBefore 0 120 0 := rfl
  refine ⟨rfl, ?_, ?_, ?_, ?_, ?_, ?_, ?_, ?_⟩
  · rw [htz]
    rcases rawTimezone with _ | tz
    · decide
    · simp only
      rcases hc : supportedZoneIds.contains tz
      · simp only [hc, Bool.false_eq_true, if_false]
        decide
      · simp only [hc, if_true]
        exact List.mem_of_elem_eq_true hc
  · intro hunsup
    rw [htz]
    rcases rawTimezone with _ | tz
    · rfl
    · simp only
      rcases hc : supportedZoneIds.contains tz
      · simp [hc]
      · exact absurd (List.mem_of_elem_eq_true hc) (hunsup tz rfl)
  · rw [hnb]
    unfold clampInt
    rcases hp : parseIntJS rawNotifyBefore with _ | n
    · simp
    · simp only
      split_ifs <;> omega
  · rw [hnb]
    unfold clampInt
    rcases hp : parseIntJS rawNotifyBefore with _ | n
    · simp
    · simp only
      split_ifs <;> omega
  · intro hp
    rw [hnb]
    unfold clampInt
    rw [hp]
  · intro n hp hn
    rw [hnb]
    unfold clampInt
    rw [hp]
    simp only
    split_ifs
    omega
  · intro n hp hn
    rw [hnb]
    unfold clampInt
    rw [hp]
    simp only
    split_ifs <;> omega
  · intro n hp h0 h120
    rw [hnb]
    unfold clampInt
    rw [hp]
    simp only
    split_ifs <;> omega

/-- Witness for C9 at concrete inputs: an unknown zone falls back to
`Europe/Moscow` and an out-of-range stored lead `999` clamps to 120. -/
theorem claim9_witness :
    (loadSettings (some "Mars/Olympus") ("999".toList) true).timezone =
      "Europe/Moscow" ∧
    (loadSettings (some "Mars/Olympus") ("999".toList) true).notifyBeforeMinutes =
      120 := by
  constructor
  · exact (claim9_confirmed (some "Mars/Olympus") ("999".toList) true).2.2.1
      (by intro tz h; cases h; decide)
  · exact (claim9_confirmed (some "Mars/Olympus") ("999".toList) true).2.2.2.2.2.2.2.1
      999 (by decide) (by decide)

/-! ## Calendar arithmetic: `civilFromDays` and `daysFromCivil` are mutually
inverse.  The two irregular division recoveries are settled by exhausting the
400-year era (`interval_cases`), everything else is linear arithmetic. -/

set_option maxHeartbeats 1000000 in
theorem yoe_recover (yoe doy doe : Int) (h1 : 0 ≤ yoe) (h2 : yoe ≤ 399)
    (h3 : 0 ≤ doy) (h4 : doy ≤ 365)
    (h5 : doy = 365 → (yoe + 1) % 4 = 0 ∧ ((yoe + 1) % 100 ≠ 0 ∨ (yoe + 1) % 400 = 0))
    (hdoe : doe = 365 * yoe + yoe / 4 - yoe / 100 + doy) :
    (doe - doe / 1460 + doe / 36524 - doe / 146096) / 365 = yoe := by
  interval_cases yoe <;> omega

set_option maxHeartbeats 1000000 in
theorem yoe_div_bounds (doe q1 q2 q3 yoe : Int) (h1 : 0 ≤ doe) (h2 : doe ≤ 146096)
    (hq1 : q1 = doe / 1460) (hq2 : q2 = doe / 36524) (hq3 : q3 = doe / 146096)
    (hyoe : yoe = (doe - q1 + q2 - q3) / 365) :
    0 ≤ yoe ∧ yoe ≤ 399 ∧ 365 * yoe + yoe / 4 - yoe / 100 ≤ doe ∧
      doe ≤ 365 * yoe + yoe / 4 - yoe / 100 + 365 := by
  have hb1 : 0 ≤ q1 := by omega
  have hb2 : q1 ≤ 100 := by omega
  have hb3 : 0 ≤ q2 := by omega
  have hb4 : q2 ≤ 4 := by omega
  interval_cases q1 <;> first | omega | (interval_cases q2 <;> omega)

theorem civil_inverse_aux (z doe era yoe y doy mp d m : Int)
    (hdoe : doe = (z + 719468) % 146097)
    (hera : era = (z + 719468) / 146097)
    (hyoe : yoe = (doe - doe / 1460 + doe / 36524 - doe / 146096) / 365)
    (hy : y = yoe + era * 400)
    (hdoy : doy = doe - (365 * yoe + yoe / 4 - yoe / 100))
    (hmp : mp = (5 * doy + 2) / 153)
    (hd : d = doy - (153 * mp + 2) / 5 + 1)
    (hm : m = if mp < 10 then mp + 3 else mp - 9) :
    daysFromCivil (if m ≤ 2 then y + 1 else y) m d = z ∧ 1 ≤ m ∧ m ≤ 12 := by
  have hB := yoe_div_bounds doe (doe / 1460) (doe / 36524) (doe / 146096) yoe
    (by omega) (by omega) rfl rfl rfl hyoe
  have hdoyB : 0 ≤ doy ∧ doy ≤ 365 := by omega
  have hmpB : 0 ≤ mp ∧ mp ≤ 11 := by omega
  have hmB : 1 ≤ m ∧ m ≤ 12 := by
    split_ifs at hm <;> omega
  refine ⟨?_, hmB.1, hmB.2⟩
  unfold daysFromCivil
  simp only []
  have hyy : (if m ≤ 2 then (if m ≤ 2 then y + 1 else y) - 1
      else if m ≤ 2 then y + 1 else y) = y := by
    split_ifs <;> omega
  rw [hyy]
  have hmp2 : (if 2 < m then m - 3 else m + 9) = mp := by
    split_ifs at hm ⊢ <;> omega
  rw [hmp2]
  have hera2 : y / 400 = era := by omega
  rw [hera2]
  have hyoe2 : y - era * 400 = yoe := by omega
  rw [hyoe2]
  have hdoeB : 0 ≤ doe ∧ doe ≤ 146096 := by omega
  clear hB hyoe hyy hmp2 hera2 hyoe2 hm hmB
  omega

theorem civilFromDays_inverse (z : Int) :
    daysFromCivil (civilFromDays z).1 (civilFromDays z).2.1 (civilFromDays z).2.2 = z ∧
    1 ≤ (civilFromDays z).2.1 ∧ (civilFromDays z).2.1 ≤ 12 :=
  civil_inverse_aux z _ _ _ _ _ _ _ _ rfl rfl rfl rfl rfl rfl rfl rfl

theorem civilFromDays_year_aux (z doe era yoe doy mp m y : Int)
    (hz : -683003 ≤ z)
    (hdoe : doe = (z + 719468) % 146097)
    (hera : era = (z + 719468) / 146097)
    (hyoe : yoe = (doe - doe / 1460 + doe / 36524 - doe / 146096) / 365)
    (hy : y = yoe + era * 400)
    (hdoy : doy = doe - (365 * yoe + yoe / 4 - yoe / 100))
    (hmp : mp = (5 * doy + 2) / 153)
    (hm : m = if mp < 10 then mp + 3 else mp - 9) :
    100 ≤ if m ≤ 2 then y + 1 else y := by
  have hB := yoe_div_bounds doe (doe / 1460) (doe / 36524) (doe / 146096) yoe
    (by omega) (by omega) rfl rfl rfl hyoe
  split_ifs at hm ⊢ <;> omega

/-- Day numbers at or after the start of proleptic year 100 decode to a year
of at least 100. -/
theorem civilFromDays_year_ge_100 (z : Int) (hz : -683003 ≤ z) :
    100 ≤ (civilFromDays z).1 :=
  civilFromDays_year_aux z _ _ _ _ _ _ _ hz rfl rfl rfl rfl rfl rfl rfl

theorem days_civil_aux (y m d y1 era yoe mp doy doe z : Int)
    (hm1 : 1 ≤ m) (hm2 : m ≤ 12) (hd1 : 1 ≤ d) (hd2 : d ≤ daysInMonth y m)
    (hy1 : y1 = if m ≤ 2 then y - 1 else y)
    (hera : era = y1 / 400)
    (hyoe : yoe = y1 - era * 400)
    (hmp : mp = if 2 < m then m - 3 else m + 9)
    (hdoy : doy = (153 * mp + 2) / 5 + d - 1)
    (hdoe : doe = yoe * 365 + yoe / 4 - yoe / 100 + doy)
    (hz : z = era * 146097 + doe - 719468) :
    civilFromDays z = (y, m, d) := by
  have hyoeB : 0 ≤ yoe ∧ yoe ≤ 399 := by omega
  have hmpB : 0 ≤ mp ∧ mp ≤ 11 := by
    split_ifs at hmp <;> omega
  have hkey : doy ≤ 364 ∨ (doy = 365 ∧ (yoe + 1) % 4 = 0 ∧
      ((yoe + 1) % 100 ≠ 0 ∨ (yoe + 1) % 400 = 0)) := by
    unfold daysInMonth at hd2
    split_ifs at hd2 with hc1 hc2 hc3
    · simp only [isLeap, Bool.or_eq_true, Bool.and_eq_true, decide_eq_true_eq,
        bne_iff_ne, ne_eq] at hc2
      split_ifs at hmp hy1 <;> omega
    · split_ifs at hmp hy1 <;> omega
    · split_ifs at hmp hy1 <;> omega
    · split_ifs at hmp hy1 <;> omega
  have hdub : (mp = 11 → d ≤ 29) ∧ ((mp = 1 ∨ mp = 3 ∨ mp = 6 ∨ mp = 8) → d ≤ 30) ∧
      d ≤ 31 := by
    unfold daysInMonth at hd2
    split_ifs at hd2 <;> (split_ifs at hmp <;> omega)
  have hdoyB : 0 ≤ doy ∧ doy ≤ 365 := by
    rcases hkey with hk | hk <;> omega
  have hrec : (doe - doe / 1460 + doe / 36524 - doe / 146096) / 365 = yoe := by
    refine yoe_recover yoe doy doe hyoeB.1 hyoeB.2 hdoyB.1 hdoyB.2 ?_ (by omega)
    intro h365
    rcases hkey with hk | hk
    · omega
    · exact hk.2
  have hdoeB : 0 ≤ doe ∧ doe ≤ 146096 := by omega
  have hemod : (z + 719468) % 146097 = doe := by omega
  have hediv : (z + 719468) / 146097 = era := by omega
  have doyR : doe - (365 * yoe + yoe / 4 - yoe / 100) = doy := by omega
  have mpR : (5 * doy + 2) / 153 = mp := by
    have h0 : 0 ≤ mp := hmpB.1
    have h1 : mp ≤ 11 := hmpB.2
    interval_cases mp <;> omega
  have dR : doy - (153 * mp + 2) / 5 + 1 = d := by omega
  unfold civilFromDays
  simp only []
  rw [hemod, hediv, hrec, doyR, mpR, dR]
  have mR : (if mp < 10 then mp + 3 else mp - 9) = m := by
    split_ifs at hmp ⊢ <;> omega
  rw [mR]
  refine Prod.ext ?_ (Prod.ext rfl rfl)
  simp only
  split_ifs at hy1 ⊢ <;> omega

theorem days_civil_roundtrip (y m d : Int) (hm1 : 1 ≤ m) (hm2 : m ≤ 12)
    (hd1 : 1 ≤ d) (hd2 : d ≤ daysInMonth y m) :
    civilFromDays (daysFromCivil y m d) = (y, m, d) :=
  days_civil_aux y m d _ _ _ _ _ _ _ hm1 hm2 hd1 hd2 rfl rfl rfl rfl rfl rfl rfl

theorem daysFromCivil_add_days (y m d : Int) :
    daysFromCivil y m d = daysFromCivil y m 1 + (d - 1) := by
  unfold daysFromCivil
  simp only []
  split_ifs <;> ring

/-- Reinterpreting the UTC wall-clock components of `x` as UTC recovers `x`
truncated to whole seconds, provided the decoded year is at least 100 (below
that, `MakeFullYear` remaps the year). -/
theorem dateUTCraw_msToZoneParts (x : Int)
    (hy100 : 100 ≤ (civilFromDays (x / 86400000)).1) :
    dateUTCraw (msToZoneParts x).year ((msToZoneParts x).month - 1)
      (msToZoneParts x).day (msToZoneParts x).hour (msToZoneParts x).minute
      (msToZoneParts x).second = x - x % 1000 := by
  obtain ⟨hinv, hm1, hm12⟩ := civilFromDays_inverse (x / 86400000)
  unfold msToZoneParts dateUTCraw
  simp only []
  have h0 : ((civilFromDays (x / 86400000)).2.1 - 1) / 12 = 0 := by omega
  have h1 : ((civilFromDays (x / 86400000)).2.1 - 1) % 12 + 1 =
      (civilFromDays (x / 86400000)).2.1 := by omega
  have hyr : (if 0 ≤ (civilFromDays (x / 86400000)).1 ∧
      (civilFromDays (x / 86400000)).1 ≤ 99
      then 1900 + (civilFromDays (x / 86400000)).1
      else (civilFromDays (x / 86400000)).1) = (civilFromDays (x / 86400000)).1 :=
    if_neg (by omega)
  rw [h0, h1, add_zero, hyr,
    daysFromCivil_add_days _ _ (civilFromDays (x / 86400000)).2.2] at *
  omega

theorem zoneOffsetPure_fixedZone (off t : Int)
    (hy100 : 100 ≤ (civilFromDays ((t + off) / 86400000)).1) :
    zoneOffsetPure (fixedZone off) t = off - (t + off) % 1000 := by
  unfold zoneOffsetPure fixedZone
  rw [dateUTCraw_msToZoneParts _ hy100]
  omega

theorem fixedZone_sane (off : Int) (h1 : 0 ≤ off) (h2 : off ≤ offsetBound) :
    ZoneSane (fixedZone off) := by
  intro t ht1 ht2
  have hz : -683003 ≤ (t + off) / 86400000 := by
    unfold yearHundredMs at ht1
    omega
  rw [zoneOffsetPure_fixedZone off t (civilFromDays_year_ge_100 _ hz)]
  unfold offsetBound at *
  omega

theorem moscowZone_sane : ZoneSane moscowZone :=
  fixedZone_sane 10800000 (by norm_num) (by norm_num [offsetBound])

/-! ## Evaluation of the conversion chain when nothing clips or throws -/

theorem zoneOffsetMsE_eval (zp : ZoneFormatter) (t : Int)
    (h1 : -timeMax ≤ t) (h2 : t ≤ timeMax)
    (h3 : -timeMax ≤ t + zoneOffsetPure zp t) (h4 : t + zoneOffsetPure zp t ≤ timeMax) :
    zoneOffsetMsE zp (some t) = .ok (some (zoneOffsetPure zp t)) := by
  unfold zoneOffsetMsE getZonePartsE
  simp only []
  rw [if_pos ⟨h1, h2⟩]
  simp only []
  unfold dateUTC
  have hraw : dateUTCraw (zp t).year ((zp t).month - 1) (zp t).day (zp t).hour
      (zp t).minute (zp t).second = t + zoneOffsetPure zp t := by
    unfold zoneOffsetPure
    ring
  simp only []
  rw [hraw, if_pos ⟨h3, h4⟩]
  simp only [Option.map_some']
  have harith : t + zoneOffsetPure zp t - t = zoneOffsetPure zp t := by ring
  rw [harith]

theorem convLoop_eval (zp : ZoneFormatter) (g : Int) (hs : ZoneSane zp)
    (h1 : yearHundredMs + 3 * offsetBound ≤ g) (h2 : g ≤ timeMax - 3 * offsetBound) :
    convLoop zp (some g) 3 (some g) = .ok (some (threeIterationResult zp g)) := by
  have hBpos : (0:Int) < offsetBound := by norm_num [offsetBound]
  have hMB : (3:Int) * offsetBound ≤ timeMax := by norm_num [offsetBound, timeMax]
  have hYM : -timeMax ≤ yearHundredMs := by norm_num [timeMax, yearHundredMs]
  obtain ⟨ha1, ha2⟩ := hs g (by omega) (by omega)
  have e1 := zoneOffsetMsE_eval zp g (by omega) (by omega) (by omega) (by omega)
  obtain ⟨hb1, hb2⟩ := hs (g - zoneOffsetPure zp g) (by omega) (by omega)
  have e2 := zoneOffsetMsE_eval zp (g - zoneOffsetPure zp g) (by omega) (by omega)
    (by omega) (by omega)
  obtain ⟨hc1, hc2⟩ := hs (g - zoneOffsetPure zp (g - zoneOffsetPure zp g))
    (by omega) (by omega)
  have e3 := zoneOffsetMsE_eval zp (g - zoneOffsetPure zp (g - zoneOffsetPure zp g))
    (by omega) (by omega) (by omega) (by omega)
  show convLoop zp (some g) 3 (some g) = _
  rw [convLoop, e1]
  simp only [jsSub]
  rw [convLoop, e2]
  simp only [jsSub]
  rw [convLoop, e3]
  simp only [jsSub]
  rw [convLoop]
  rfl

theorem zonedLocalToUtcMs_eval (zp : ZoneFormatter) (s : List Char)
    (y mo d h mi : Int) (hs : ZoneSane zp)
    (hp : parseDateTimeParts s = some (y, mo, d, h, mi))
    (h1 : yearHundredMs + 3 * offsetBound ≤ dateUTCraw y (mo - 1) d h mi 0)
    (h2 : dateUTCraw y (mo - 1) d h mi 0 ≤ timeMax - 3 * offsetBound) :
    zonedLocalToUtcMs zp s =
      .ok (.num (threeIterationResult zp (dateUTCraw y (mo - 1) d h mi 0))) := by
  unfold zonedLocalToUtcMs
  rw [hp]
  simp only []
  have hclip : dateUTC y (mo - 1) d h mi 0 = some (dateUTCraw y (mo - 1) d h mi 0) := by
    unfold dateUTC
    simp only []
    rw [if_pos]
    constructor <;> norm_num [offsetBound, timeMax, yearHundredMs] at h1 h2 ⊢ <;> omega
  rw [hclip, convLoop_eval zp _ hs h1 h2]

/-- C3, counterexample to the claim as stated.  The claim promises, for every
input string decomposing into five finite integer components, that the result
of the third refinement iteration is returned.  For year 275761 the naive
guess exceeds the representable `Date` range, `Date.UTC` yields `NaN`
(modelled `none`), and the first `getZoneParts` of the loop throws a
`RangeError`: the conversion returns nothing at all. -/
theorem claim3_counterexample :
    parseDateTimeParts ("275761-01-01T00:00".toList) = some (275761, 1, 1, 0, 0) ∧
    zonedLocalToUtcMs moscowZone ("275761-01-01T00:00".toList) = .error () := by
  decide

/-- C3 (amended): for every input string that decomposes into five finite
integer components and every sane zone formatter, provided the naive guess —
computed as `Date.UTC` does, with `MakeFullYear` mapping integer years 0-99
to 1900-1999 — lies between the start of proleptic year 100 plus three
14-hour offset bounds and the max time value `8.64e15` minus the same
margin, the conversion performs exactly 3 iterations of
`guess = naiveUTC - offsetMs(zone, guess)` — where `offsetMs(zone, t)` is the
wall-clock components of `t` in the zone reinterpreted as UTC minus `t` —
and returns the third iterate. -/
theorem claim3_amended (zp : ZoneFormatter) (s : List Char) (y mo d h mi : Int)
    (hs : ZoneSane zp)
    (hp : parseDateTimeParts s = some (y, mo, d, h, mi))
    (h1 : yearHundredMs + 3 * offsetBound ≤ dateUTCraw y (mo - 1) d h mi 0)
    (h2 : dateUTCraw y (mo - 1) d h mi 0 ≤ timeMax - 3 * offsetBound) :
    zonedLocalToUtcMs zp s =
      .ok (.num (threeIterationResult zp (dateUTCraw y (mo - 1) d h mi 0))) :=
  zonedLocalToUtcMs_eval zp s y mo d h mi hs hp h1 h2

/-- Witness for C3 (amended): the spec's own example, Moscow wall clock
`2025-06-01T09:30`. -/
theorem claim3_witness :
    zonedLocalToUtcMs moscowZone ("2025-06-01T09:30".toList) =
      .ok (.num (threeIterationResult moscowZone (dateUTCraw 2025 (6 - 1) 1 9 30 0))) :=
  claim3_amended moscowZone ("2025-06-01T09:30".toList) 2025 6 1 9 30
    moscowZone_sane (by decide) (by decide) (by decide)

/-- C8, counterexample to the claim as stated.  "For every string that does
decompose, it returns a number" fails: year 275761 decomposes into five
finite components but the conversion throws a `RangeError` out of the
platform formatter instead of returning anything. -/
theorem claim8_counterexample :
    parseDateTimeParts ("275761-06-01T00:00".toList) = some (275761, 6, 1, 0, 0) ∧
    zonedLocalToUtcMs moscowZone ("275761-06-01T00:00".toList) = .error () := by
  decide

/-- C8 (amended): the conversion returns `null` — and does not throw — for
every input string that cannot be decomposed into five finite integer
components; a string that does decompose returns a number whenever the naive
timestamp (with `MakeFullYear` applied) lies between the start of year 100
plus three offset bounds and the max time value minus three offset bounds
and the zone is sane; it does not always return a number (see the
counterexample at year 275761, where the formatter throws). -/
theorem claim8_amended :
    (∀ (zp : ZoneFormatter) (s : List Char), parseDateTimeParts s = none →
      zonedLocalToUtcMs zp s = .ok .jsNull) ∧
    (∀ (zp : ZoneFormatter) (s : List Char) (y mo d h mi : Int), ZoneSane zp →
      parseDateTimeParts s = some (y, mo, d, h, mi) →
      yearHundredMs + 3 * offsetBound ≤ dateUTCraw y (mo - 1) d h mi 0 →
      dateUTCraw y (mo - 1) d h mi 0 ≤ timeMax - 3 * offsetBound →
      ∃ v, zonedLocalToUtcMs zp s = .ok (.num v)) := by
  constructor
  · intro zp s hp
    unfold zonedLocalToUtcMs
    rw [hp]
  · intro zp s y mo d h mi hs hp h1 h2
    exact ⟨_, zonedLocalToUtcMs_eval zp s y mo d h mi hs hp h1 h2⟩

/-- Witness for C8 (amended): a date-only string yields `null`; the spec's
Moscow example yields a number. -/
theorem claim8_witness :
    zonedLocalToUtcMs moscowZone ("2025-06-01".toList) = .ok .jsNull ∧
    ∃ v, zonedLocalToUtcMs moscowZone ("2025-06-01T09:30".toList) = .ok (.num v) := by
  constructor
  · exact claim8_amended.1 moscowZone ("2025-06-01".toList) (by decide)
  · exact claim8_amended.2 moscowZone ("2025-06-01T09:30".toList) 2025 6 1 9 30
      moscowZone_sane (by decide) (by decide) (by decide)

/-- C10, counterexample to the claim as stated.  "For every input string that
decomposes into five finite integers, the conversion returns a non-null
instant" fails at extreme components: month 13 of year 275761 decomposes but
the conversion throws out of the platform formatter. -/
theorem claim10_counterexample :
    parseDateTimeParts ("275761-13-01T00:00".toList) = some (275761, 13, 1, 0, 0) ∧
    zonedLocalToUtcMs moscowZone ("275761-13-01T00:00".toList) = .error () := by
  decide

/-- C10 (amended): for every input string that decomposes into five finite
integers whose naive timestamp (with `MakeFullYear` applied) lies between
the start of year 100 plus three offset bounds and the max time value minus
three offset bounds, and every sane zone, the conversion returns a non-null
instant even for out-of-range components; the components roll over
arithmetically: month 13 of 2025 is January 2026, June 32 is July 2,
hour 25 is 1 a.m. of the next day, and minute 99 is 1:39. -/
theorem claim10_amended :
    (∀ (zp : ZoneFormatter) (s : List Char) (y mo d h mi : Int), ZoneSane zp →
      parseDateTimeParts s = some (y, mo, d, h, mi) →
      yearHundredMs + 3 * offsetBound ≤ dateUTCraw y (mo - 1) d h mi 0 →
      dateUTCraw y (mo - 1) d h mi 0 ≤ timeMax - 3 * offsetBound →
      ∃ v, zonedLocalToUtcMs zp s = .ok (.num v)) ∧
    zonedLocalToUtcMs moscowZone ("2025-13-01T00:00".toList) =
      zonedLocalToUtcMs moscowZone ("2026-01-01T00:00".toList) ∧
    zonedLocalToUtcMs moscowZone ("2025-06-32T00:00".toList) =
      zonedLocalToUtcMs moscowZone ("2025-07-02T00:00".toList) ∧
    zonedLocalToUtcMs moscowZone ("2025-06-01T25:00".toList) =
      zonedLocalToUtcMs moscowZone ("2025-06-02T01:00".toList) ∧
    zonedLocalToUtcMs moscowZone ("2025-06-01T00:99".toList) =
      zonedLocalToUtcMs moscowZone ("2025-06-01T01:39".toList) := by
  refine ⟨?_, by decide, by decide, by decide, by decide⟩
  intro zp s y mo d h mi hs hp h1 h2
  exact ⟨_, zonedLocalToUtcMs_eval zp s y mo d h mi hs hp h1 h2⟩

/-- Witness for C10 (amended): the month-13 input returns a non-null
instant. -/
theorem claim10_witness :
    ∃ v, zonedLocalToUtcMs moscowZone ("2025-13-01T00:00".toList) = .ok (.num v) :=
  claim10_amended.1 moscowZone ("2025-13-01T00:00".toList) 2025 13 1 0 0
    moscowZone_sane (by decide) (by decide) (by decide)

/-! ## String lemmas: parsing the formatted reminder string recovers the
wall-clock components -/

theorem digitVal_ofNat (r : Nat) (h : r < 10) :
    digitVal (Char.ofNat (48 + r)) = r ∧ (Char.ofNat (48 + r)).isDigit = true := by
  interval_cases r <;> exact ⟨by decide, by decide⟩

theorem natDigits_ne_nil (n : Nat) : natDigits n ≠ [] := by
  rw [natDigits]
  split_ifs <;> simp

theorem natDigits_all_digit (n : Nat) : ∀ c ∈ natDigits n, c.isDigit = true := by
  induction n using Nat.strong_induction_on with
  | _ n ih =>
    rw [natDigits]
    split_ifs with h10
    · intro c hc
      simp only [List.mem_singleton] at hc
      subst hc
      exact (digitVal_ofNat n h10).2
    · intro c hc
      simp only [List.mem_append, List.mem_singleton] at hc
      rcases hc with hc | hc
      · exact ih (n / 10) (Nat.div_lt_self (by omega) (by omega)) c hc
      · subst hc
        exact (digitVal_ofNat (n % 10) (Nat.mod_lt n (by omega))).2

theorem isDigit_ne_sep (c : Char) (h : c.isDigit = true) :
    c ≠ '-' ∧ c ≠ 'T' ∧ c ≠ ':' ∧ c ≠ ' ' ∧ c ≠ '+' ∧ isJsSpace c = false := by
  refine ⟨?_, ?_, ?_, ?_, ?_, ?_⟩
  · intro hc; rw [hc] at h; exact absurd h (by decide)
  · intro hc; rw [hc] at h; exact absurd h (by decide)
  · intro hc; rw [hc] at h; exact absurd h (by decide)
  · intro hc; rw [hc] at h; exact absurd h (by decide)
  · intro hc; rw [hc] at h; exact absurd h (by decide)
  · rcases hsp : isJsSpace c
    · rfl
    · exfalso
      simp only [isJsSpace, Bool.or_eq_true, decide_eq_true_eq] at hsp
      rcases hsp with ((rfl | rfl) | rfl) | rfl <;> exact absurd h (by decide)

theorem foldDigits_append (ds rest : List Char) (acc : Nat)
    (hd : ∀ c ∈ ds, c.isDigit = true) :
    foldDigits (ds ++ rest) acc = foldDigits rest (foldDigits ds acc) := by
  induction ds generalizing acc with
  | nil => rfl
  | cons c t ih =>
    have hc : c.isDigit = true := hd c (by simp)
    simp only [List.cons_append, foldDigits, hc, if_pos]
    exact ih _ (fun x hx => hd x (by simp [hx]))

theorem foldDigits_stop (rest : List Char) (acc : Nat)
    (h : rest = [] ∨ ∃ c t, rest = c :: t ∧ c.isDigit = false) :
    foldDigits rest acc = acc := by
  rcases h with rfl | ⟨c, t, rfl, hc⟩
  · rfl
  · simp [foldDigits, hc]

theorem foldDigits_natDigits (n : Nat) : foldDigits (natDigits n) 0 = n := by
  induction n using Nat.strong_induction_on with
  | _ n ih =>
    rw [natDigits]
    split_ifs with h10
    · simp [foldDigits, (digitVal_ofNat n h10).2, (digitVal_ofNat n h10).1]
    · rw [foldDigits_append _ _ _ (natDigits_all_digit (n / 10))]
      rw [ih (n / 10) (Nat.div_lt_self (by omega) (by omega))]
      have h9 := digitVal_ofNat (n % 10) (Nat.mod_lt n (by omega))
      simp only [foldDigits, h9.1, h9.2, if_pos]
      omega

theorem parseIntJS_digits (ds rest : List Char) (hne : ds ≠ [])
    (hdig : ∀ c ∈ ds, c.isDigit = true)
    (hrest : rest = [] ∨ ∃ c t, rest = c :: t ∧ c.isDigit = false) :
    parseIntJS (ds ++ rest) = some ((foldDigits ds 0 : Nat) : Int) := by
  rcases ds with _ | ⟨c, ds2⟩
  · exact absurd rfl hne
  have hc : c.isDigit = true := hdig c (by simp)
  obtain ⟨hc1, hc2, hc3, hc4, hc5, hc6⟩ := isDigit_ne_sep c hc
  unfold parseIntJS
  have hdw : ((c :: ds2) ++ rest).dropWhile isJsSpace = (c :: ds2) ++ rest := by
    simp [List.dropWhile, hc6]
  rw [hdw]
  have hlead : leadingNat ((c :: ds2) ++ rest) = some (foldDigits ((c :: ds2) ++ rest) 0) := by
    simp [leadingNat, hc]
  have hfold : foldDigits ((c :: ds2) ++ rest) 0 = foldDigits (c :: ds2) 0 := by
    rw [foldDigits_append _ _ _ hdig, foldDigits_stop rest _ hrest]
  split
  · rename_i heq
    exfalso
    injection heq with h1 h2
    exact hc1 h1
  · rename_i heq
    exfalso
    injection heq with h1 h2
    exact hc5 h1
  · rw [hlead, hfold]
    rfl

theorem jsSplit_ne_nil (sep : Char) (l : List Char) : jsSplit sep l ≠ [] := by
  cases l with
  | nil => simp [jsSplit]
  | cons c t =>
    unfold jsSplit
    cases jsSplit sep t with
    | nil => simp
    | cons g gs => split_ifs <;> simp

theorem jsSplit_of_not_mem (sep : Char) (a : List Char) (h : sep ∉ a) :
    jsSplit sep a = [a] := by
  induction a with
  | nil => rfl
  | cons c t ih =>
    have hc : ¬ c = sep := fun hc => h (by simp [hc])
    unfold jsSplit
    rw [ih (fun hm => h (by simp [hm]))]
    simp [hc]

theorem jsSplit_cons (sep c : Char) (rest : List Char) :
    jsSplit sep (c :: rest) =
      match jsSplit sep rest with
      | [] => [[]]
      | g :: gs => if c = sep then [] :: g :: gs else (c :: g) :: gs := rfl

theorem jsSplit_append (sep : Char) (a b : List Char) (h : sep ∉ a) :
    jsSplit sep (a ++ sep :: b) = a :: jsSplit sep b := by
  induction a with
  | nil =>
    rw [List.nil_append, jsSplit_cons]
    rcases hsb : jsSplit sep b with _ | ⟨g, gs⟩
    · exact absurd hsb (jsSplit_ne_nil sep b)
    · simp
  | cons c t ih =>
    have hc : ¬ c = sep := fun hc => h (by simp [hc])
    rw [List.cons_append, jsSplit_cons, ih (fun hm => h (by simp [hm]))]
    simp [hc]

theorem jsIntToString_spec (y : Int) (h : 0 ≤ y) :
    jsIntToString y ≠ [] ∧ (∀ c ∈ jsIntToString y, c.isDigit = true) ∧
    foldDigits (jsIntToString y) 0 = y.toNat := by
  unfold jsIntToString
  rw [if_neg (not_lt.mpr h)]
  exact ⟨natDigits_ne_nil _, natDigits_all_digit _, foldDigits_natDigits _⟩

theorem pad2_spec (n : Int) (h : 0 ≤ n) :
    pad2 n ≠ [] ∧ (∀ c ∈ pad2 n, c.isDigit = true) ∧
    foldDigits (pad2 n) 0 = n.toNat := by
  obtain ⟨hne, hdig, hval⟩ := jsIntToString_spec n h
  unfold pad2
  simp only []
  split_ifs with hlen
  · have hpos : 0 < (jsIntToString n).length := List.length_pos.mpr hne
    have h21 : 2 - (jsIntToString n).length = 1 := by omega
    rw [h21]
    have hrep : List.replicate 1 '0' = ['0'] := rfl
    rw [hrep]
    refine ⟨by simp, ?_, ?_⟩
    · intro c hc
      rcases List.mem_append.mp hc with hc | hc
      · simp only [List.mem_singleton] at hc
        subst hc
        decide
      · exact hdig c hc
    · have : foldDigits (['0'] ++ jsIntToString n) 0 =
          foldDigits (jsIntToString n) (foldDigits ['0'] 0) :=
        foldDigits_append ['0'] _ 0 (by intro c hc; simp at hc; subst hc; decide)
      rw [this]
      have h0 : foldDigits ['0'] 0 = 0 := by decide
      rw [h0, hval]
  · exact ⟨hne, hdig, hval⟩

theorem replaceFirstChar_cons (pat repl c : Char) (t : List Char) :
    replaceFirstChar pat repl (c :: t) =
      if c = pat then repl :: t else c :: replaceFirstChar pat repl t := rfl

theorem replaceFirstChar_append (pat repl : Char) (a b : List Char) (h : pat ∉ a) :
    replaceFirstChar pat repl (a ++ pat :: b) = a ++ repl :: b := by
  induction a with
  | nil => simp [replaceFirstChar]
  | cons c t ih =>
    have hc : ¬ c = pat := fun hc => h (by simp [hc])
    rw [List.cons_append, replaceFirstChar_cons, if_neg hc,
      ih (fun hm => h (by simp [hm])), List.cons_append]

theorem dropWhile_eq_self_of_head (p : Char → Bool) (l : List Char)
    (h : ∀ c, l.head? = some c → p c = false) : l.dropWhile p = l := by
  cases l with
  | nil => rfl
  | cons c t => simp [List.dropWhile, h c rfl]

theorem jsTrim_eq_self (s : List Char)
    (h1 : ∀ c, s.head? = some c → isJsSpace c = false)
    (h2 : ∀ c, s.getLast? = some c → isJsSpace c = false) : jsTrim s = s := by
  unfold jsTrim
  rw [dropWhile_eq_self_of_head _ _ h1]
  rw [dropWhile_eq_self_of_head _ _
    (fun c hc => h2 c (by rwa [List.head?_reverse] at hc))]
  exact List.reverse_reverse s

theorem contains_eq_false_of_not_mem (s : List Char) (c : Char) (h : c ∉ s) :
    s.contains c = false := by
  rcases hc : s.contains c
  · rfl
  · exact absurd (List.mem_of_elem_eq_true hc) h

theorem head?_mem (l : List Char) (c : Char) (hc : l.head? = some c) : c ∈ l := by
  cases l with
  | nil => cases hc
  | cons a t =>
    simp only [List.head?, Option.some.injEq] at hc
    simp [hc]

theorem getLast?_mem (l : List Char) (c : Char) (hc : l.getLast? = some c) : c ∈ l := by
  induction l with
  | nil => cases hc
  | cons a t ih =>
    cases t with
    | nil =>
      simp only [List.getLast?_singleton, Option.some.injEq] at hc
      simp [hc]
    | cons b t2 =>
      rw [List.getLast?_cons_cons] at hc
      exact List.mem_cons_of_mem a (ih hc)

theorem not_mem_of_all_digit (l : List Char) (hd : ∀ c ∈ l, c.isDigit = true)
    (x : Char) (hx : x.isDigit = false) : x ∉ l :=
  fun hm => by rw [hd x hm] at hx; cases hx

theorem append_ne_nil_left (l1 l2 : List Char) (h : l1 ≠ []) : l1 ++ l2 ≠ [] :=
  fun hh => h (List.append_eq_nil.mp hh).1

theorem getLast?_cons_of_ne_nil (a : Char) (l : List Char) (h : l ≠ []) :
    (a :: l).getLast? = l.getLast? := by
  rw [← List.singleton_append]
  exact List.getLast?_append_of_ne_nil _ h

theorem formatComponents_chars (y m d h mi : Int) (hy : 0 ≤ y) (hm : 0 ≤ m)
    (hd : 0 ≤ d) (hh : 0 ≤ h) (hmi : 0 ≤ mi) :
    ∀ c ∈ formatComponents y m d h mi,
      c.isDigit = true ∨ c = '-' ∨ c = ' ' ∨ c = ':' := by
  intro c hc
  unfold formatComponents at hc
  simp only [List.mem_append, List.mem_cons] at hc
  rcases hc with hc | hc
  · exact Or.inl ((jsIntToString_spec y hy).2.1 c hc)
  rcases hc with rfl | hc
  · exact Or.inr (Or.inl rfl)
  rcases hc with hc | hc
  · exact Or.inl ((pad2_spec m hm).2.1 c hc)
  rcases hc with rfl | hc
  · exact Or.inr (Or.inl rfl)
  rcases hc with hc | hc
  · exact Or.inl ((pad2_spec d hd).2.1 c hc)
  rcases hc with rfl | hc
  · exact Or.inr (Or.inr (Or.inl rfl))
  rcases hc with hc | hc
  · exact Or.inl ((pad2_spec h hh).2.1 c hc)
  rcases hc with rfl | hc
  · exact Or.inr (Or.inr (Or.inr rfl))
  · exact Or.inl ((pad2_spec mi hmi).2.1 c hc)

theorem parse_format (y m d h mi : Int) (hy : 0 ≤ y) (hm : 0 ≤ m) (hd : 0 ≤ d)
    (hh : 0 ≤ h) (hmi : 0 ≤ mi) :
    jsTrim (formatComponents y m d h mi) = formatComponents y m d h mi ∧
    (formatComponents y m d h mi).contains 'T' = false ∧
    parseDateTimeParts (replaceFirstChar ' ' 'T' (formatComponents y m d h mi)) =
      some (y, m, d, h, mi) := by
  obtain ⟨hAne, hAdig, hAval⟩ := jsIntToString_spec y hy
  obtain ⟨hBne, hBdig, hBval⟩ := pad2_spec m hm
  obtain ⟨hCne, hCdig, hCval⟩ := pad2_spec d hd
  obtain ⟨hDne, hDdig, hDval⟩ := pad2_spec h hh
  obtain ⟨hEne, hEdig, hEval⟩ := pad2_spec mi hmi
  refine ⟨?_, ?_, ?_⟩
  · refine jsTrim_eq_self _ ?_ ?_
    · intro c hc
      have hc2 : (jsIntToString y).head? = some c := by
        unfold formatComponents at hc
        rwa [List.head?_append_of_ne_nil _ hAne] at hc
      exact (isDigit_ne_sep c (hAdig c (head?_mem _ c hc2))).2.2.2.2.2
    · intro c hc
      have hc2 : (pad2 mi).getLast? = some c := by
        unfold formatComponents at hc
        rw [List.getLast?_append_of_ne_nil _ (by simp)] at hc
        rw [getLast?_cons_of_ne_nil _ _ (append_ne_nil_left _ _ hBne)] at hc
        rw [List.getLast?_append_of_ne_nil _ (by simp)] at hc
        rw [getLast?_cons_of_ne_nil _ _ (append_ne_nil_left _ _ hCne)] at hc
        rw [List.getLast?_append_of_ne_nil _ (by simp)] at hc
        rw [getLast?_cons_of_ne_nil _ _ (append_ne_nil_left _ _ hDne)] at hc
        rw [List.getLast?_append_of_ne_nil _ (by simp)] at hc
        rw [getLast?_cons_of_ne_nil _ _ hEne] at hc
        exact hc
      exact (isDigit_ne_sep c (hEdig c (getLast?_mem _ c hc2))).2.2.2.2.2
  · refine contains_eq_false_of_not_mem _ _ ?_
    intro hmem
    rcases formatComponents_chars y m d h mi hy hm hd hh hmi 'T' hmem with hdg | hmm
    · exact absurd hdg (by decide)
    · rcases hmm with hh1 | hh1 | hh1 <;> exact absurd hh1 (by decide)
  · have hshape : formatComponents y m d h mi =
        (jsIntToString y ++ '-' :: (pad2 m ++ '-' :: pad2 d)) ++
          ' ' :: (pad2 h ++ ':' :: pad2 mi) := by
      unfold formatComponents
      simp [List.append_assoc]
    have hspm : ' ' ∉ jsIntToString y ++ '-' :: (pad2 m ++ '-' :: pad2 d) := by
      intro hmem
      simp only [List.mem_append, List.mem_cons] at hmem
      rcases hmem with hc | hc
      · exact absurd (hAdig _ hc) (by decide)
      rcases hc with hc | hc
      · exact absurd hc (by decide)
      rcases hc with hc | hc
      · exact absurd (hBdig _ hc) (by decide)
      rcases hc with hc | hc
      · exact absurd hc (by decide)
      · exact absurd (hCdig _ hc) (by decide)
    rw [hshape, replaceFirstChar_append _ _ _ _ hspm]
    have hTdate : 'T' ∉ jsIntToString y ++ '-' :: (pad2 m ++ '-' :: pad2 d) := by
      intro hmem
      simp only [List.mem_append, List.mem_cons] at hmem
      rcases hmem with hc | hc
      · exact absurd (hAdig _ hc) (by decide)
      rcases hc with hc | hc
      · exact absurd hc (by decide)
      rcases hc with hc | hc
      · exact absurd (hBdig _ hc) (by decide)
      rcases hc with hc | hc
      · exact absurd hc (by decide)
      · exact absurd (hCdig _ hc) (by decide)
    have hTtime : 'T' ∉ pad2 h ++ ':' :: pad2 mi := by
      intro hmem
      simp only [List.mem_append, List.mem_cons] at hmem
      rcases hmem with hc | hc
      · exact absurd (hDdig _ hc) (by decide)
      rcases hc with hc | hc
      · exact absurd hc (by decide)
      · exact absurd (hEdig _ hc) (by decide)
    have hdashA : '-' ∉ jsIntToString y :=
      not_mem_of_all_digit _ hAdig '-' (by decide)
    have hdashB : '-' ∉ pad2 m := not_mem_of_all_digit _ hBdig '-' (by decide)
    have hdashC : '-' ∉ pad2 d := not_mem_of_all_digit _ hCdig '-' (by decide)
    have hcolD : ':' ∉ pad2 h := not_mem_of_all_digit _ hDdig ':' (by decide)
    have hcolE : ':' ∉ pad2 mi := not_mem_of_all_digit _ hEdig ':' (by decide)
    unfold parseDateTimeParts
    rw [jsSplit_append 'T' _ _ hTdate, jsSplit_of_not_mem 'T' _ hTtime]
    simp only [List.get?]
    have hned : jsIntToString y ++ '-' :: (pad2 m ++ '-' :: pad2 d) ≠ [] :=
      append_ne_nil_left _ _ hAne
    have hnet : pad2 h ++ ':' :: pad2 mi ≠ [] :=
      append_ne_nil_left _ _ hDne
    rw [if_neg (by push_neg; exact ⟨hned, hnet⟩)]
    rw [jsSplit_append '-' _ _ hdashA, jsSplit_append '-' _ _ hdashB,
      jsSplit_of_not_mem '-' _ hdashC]
    rw [jsSplit_append ':' _ _ hcolD, jsSplit_of_not_mem ':' _ hcolE]
    have hpA : parseIntJS (jsIntToString y) = some y := by
      have := parseIntJS_digits (jsIntToString y) [] hAne hAdig (Or.inl rfl)
      rw [List.append_nil] at this
      rw [this, hAval, Int.toNat_of_nonneg hy]
    have hpB : parseIntJS (pad2 m) = some m := by
      have := parseIntJS_digits (pad2 m) [] hBne hBdig (Or.inl rfl)
      rw [List.append_nil] at this
      rw [this, hBval, Int.toNat_of_nonneg hm]
    have hpC : parseIntJS (pad2 d) = some d := by
      have := parseIntJS_digits (pad2 d) [] hCne hCdig (Or.inl rfl)
      rw [List.append_nil] at this
      rw [this, hCval, Int.toNat_of_nonneg hd]
    have hpD : parseIntJS (pad2 h) = some h := by
      have := parseIntJS_digits (pad2 h) [] hDne hDdig (Or.inl rfl)
      rw [List.append_nil] at this
      rw [this, hDval, Int.toNat_of_nonneg hh]
    have hpE : parseIntJS (pad2 mi) = some mi := by
      have := parseIntJS_digits (pad2 mi) [] hEne hEdig (Or.inl rfl)
      rw [List.append_nil] at this
      rw [this, hEval, Int.toNat_of_nonneg hmi]
    simp [hpA, hpB, hpC, hpD, hpE]

theorem zoneOffsetHoursOf_bounds (id : String) :
    2 ≤ zoneOffsetHoursOf id ∧ zoneOffsetHoursOf id ≤ 12 := by
  unfold zoneOffsetHoursOf
  split_ifs <;> norm_num

theorem daysInMonth_le_31 (y m : Int) : daysInMonth y m ≤ 31 := by
  unfold daysInMonth
  split_ifs <;> norm_num

theorem daysFromCivil_bounds (y m d : Int) (hy1 : 0 ≤ y) (hy2 : y ≤ 9999)
    (hm1 : 1 ≤ m) (hm2 : m ≤ 12) (hd1 : 1 ≤ d) (hd2 : d ≤ 31) :
    -720000 ≤ daysFromCivil y m d ∧ daysFromCivil y m d ≤ 2933000 := by
  unfold daysFromCivil
  simp only []
  split_ifs <;> omega

theorem daysFromCivil_ge_year100 (y m d : Int) (hy : 100 ≤ y)
    (hm1 : 1 ≤ m) (hm2 : m ≤ 12) (hd1 : 1 ≤ d) :
    -683003 ≤ daysFromCivil y m d := by
  unfold daysFromCivil
  simp only []
  split_ifs <;> omega

theorem dateUTCraw_valid_month (y m d h mi : Int) (hy : 100 ≤ y)
    (hm1 : 1 ≤ m) (hm2 : m ≤ 12) :
    dateUTCraw y (m - 1) d h mi 0 =
      daysFromCivil y m d * 86400000 + h * 3600000 + mi * 60000 := by
  unfold dateUTCraw
  simp only []
  have hyr : (if 0 ≤ y ∧ y ≤ 99 then 1900 + y else y) = y := if_neg (by omega)
  have h0 : (m - 1) / 12 = 0 := by omega
  have h1 : (m - 1) % 12 + 1 = m := by omega
  rw [hyr, h0, h1, add_zero, daysFromCivil_add_days y m d]
  ring

theorem convLoop_fixedZone (off g : Int) (hg : g % 1000 = 0) (hoff : off % 1000 = 0)
    (ho1 : 0 ≤ off) (ho2 : off ≤ offsetBound)
    (hr1 : -timeMax + offsetBound ≤ g) (hr2 : g ≤ timeMax - offsetBound)
    (hA : 100 ≤ (civilFromDays ((g + off) / 86400000)).1)
    (hB : 100 ≤ (civilFromDays (g / 86400000)).1) :
    convLoop (fixedZone off) (some g) 3 (some g) = .ok (some (g - off)) := by
  have hBnum : offsetBound = 50400000 := rfl
  have hMnum : timeMax = 8640000000000000 := rfl
  have hp1 : zoneOffsetPure (fixedZone off) g = off := by
    rw [zoneOffsetPure_fixedZone off g hA]
    omega
  have hB2 : 100 ≤ (civilFromDays ((g - off + off) / 86400000)).1 := by
    rw [show g - off + off = g from by ring]
    exact hB
  have hp2 : zoneOffsetPure (fixedZone off) (g - off) = off := by
    rw [zoneOffsetPure_fixedZone off (g - off) hB2]
    omega
  have e1 : zoneOffsetMsE (fixedZone off) (some g) = .ok (some off) := by
    have he := zoneOffsetMsE_eval (fixedZone off) g (by omega) (by omega)
      (by rw [hp1]; omega) (by rw [hp1]; omega)
    rwa [hp1] at he
  have e2 : zoneOffsetMsE (fixedZone off) (some (g - off)) = .ok (some off) := by
    have he := zoneOffsetMsE_eval (fixedZone off) (g - off) (by omega) (by omega)
      (by rw [hp2]; omega) (by rw [hp2]; omega)
    rwa [hp2] at he
  show convLoop (fixedZone off) (some g) 3 (some g) = _
  rw [convLoop, e1]
  simp only [jsSub]
  rw [convLoop, e2]
  simp only [jsSub]
  rw [convLoop, e2]
  simp only [jsSub]
  rw [convLoop]

theorem zonedLocalToUtcMs_fixedZone (off : Int) (s : List Char) (y mo d h mi : Int)
    (hp : parseDateTimeParts s = some (y, mo, d, h, mi))
    (hg : dateUTCraw y (mo - 1) d h mi 0 % 1000 = 0) (hoff : off % 1000 = 0)
    (ho1 : 0 ≤ off) (ho2 : off ≤ offsetBound)
    (hr1 : -timeMax + offsetBound ≤ dateUTCraw y (mo - 1) d h mi 0)
    (hr2 : dateUTCraw y (mo - 1) d h mi 0 ≤ timeMax - offsetBound)
    (hA : 100 ≤ (civilFromDays ((dateUTCraw y (mo - 1) d h mi 0 + off) / 86400000)).1)
    (hB : 100 ≤ (civilFromDays (dateUTCraw y (mo - 1) d h mi 0 / 86400000)).1) :
    zonedLocalToUtcMs (fixedZone off) s =
      .ok (.num (dateUTCraw y (mo - 1) d h mi 0 - off)) := by
  unfold zonedLocalToUtcMs
  rw [hp]
  simp only []
  have hclip : dateUTC y (mo - 1) d h mi 0
      = some (dateUTCraw y (mo - 1) d h mi 0) := by
    unfold dateUTC
    simp only []
    rw [if_pos]
    constructor <;> norm_num [offsetBound, timeMax] at hr1 hr2 ⊢ <;> omega
  rw [hclip, convLoop_fixedZone off _ hg hoff ho1 ho2 hr1 hr2 hA hB]

theorem msToZoneParts_of_components (y m d h mi : Int) (hm1 : 1 ≤ m) (hm2 : m ≤ 12)
    (hd1 : 1 ≤ d) (hd2 : d ≤ daysInMonth y m) (hh1 : 0 ≤ h) (hh2 : h ≤ 23)
    (hmi1 : 0 ≤ mi) (hmi2 : mi ≤ 59) :
    msToZoneParts (daysFromCivil y m d * 86400000 + h * 3600000 + mi * 60000) =
      ⟨y, m, d, h, mi, 0⟩ := by
  unfold msToZoneParts
  simp only []
  have hdays : (daysFromCivil y m d * 86400000 + h * 3600000 + mi * 60000) / 86400000
      = daysFromCivil y m d := by omega
  have htod : (daysFromCivil y m d * 86400000 + h * 3600000 + mi * 60000) % 86400000
      = h * 3600000 + mi * 60000 := by omega
  rw [hdays, htod, days_civil_roundtrip y m d hm1 hm2 hd1 hd2]
  simp only [ZoneParts.mk.injEq]
  refine ⟨trivial, trivial, trivial, by omega, by omega, by omega⟩

/-- C4, counterexample to the claim as stated.  Year 25 lies inside the
claimed range of valid components, yet the round trip through the prompt
string does not reproduce it: `Date.UTC`'s `MakeFullYear` maps the parsed
year 25 to 1925, so formatting the resulting instant back into
`Europe/Moscow` wall-clock parts yields the year 1925. -/
theorem claim4_counterexample :
    parseReminderPromptValue (zoneFormatterOf "Europe/Moscow")
      (formatComponents 25 6 1 12 0) = .ok (.okVal (-1406991600000)) ∧
    getZonePartsE (zoneFormatterOf "Europe/Moscow") (some (-1406991600000)) =
      .ok ⟨1925, 6, 1, 12, 0, 0⟩ := by
  have ha : jsIntToString 25 = ['2', '5'] := by
    unfold jsIntToString
    rw [if_neg (by decide)]
    rw [natDigits, dif_neg (by decide), natDigits, dif_pos (by decide)]
    decide
  have h6 : jsIntToString 6 = ['6'] := by
    unfold jsIntToString
    rw [if_neg (by decide)]
    rw [natDigits, dif_pos (by decide)]
    decide
  have h1 : jsIntToString 1 = ['1'] := by
    unfold jsIntToString
    rw [if_neg (by decide)]
    rw [natDigits, dif_pos (by decide)]
    decide
  have h12 : jsIntToString 12 = ['1', '2'] := by
    unfold jsIntToString
    rw [if_neg (by decide)]
    rw [natDigits, dif_neg (by decide), natDigits, dif_pos (by decide)]
    decide
  have h0 : jsIntToString 0 = ['0'] := by
    unfold jsIntToString
    rw [if_neg (by decide)]
    rw [natDigits, dif_pos (by decide)]
    decide
  have hb : pad2 6 = ['0', '6'] := by
    unfold pad2
    simp only []
    rw [h6]
    decide
  have hc : pad2 1 = ['0', '1'] := by
    unfold pad2
    simp only []
    rw [h1]
    decide
  have hd : pad2 12 = ['1', '2'] := by
    unfold pad2
    simp only []
    rw [h12]
    decide
  have he : pad2 0 = ['0', '0'] := by
    unfold pad2
    simp only []
    rw [h0]
    decide
  have hfc : formatComponents 25 6 1 12 0 = "25-06-01 12:00".toList := by
    unfold formatComponents
    rw [ha, hb, hc, hd, he]
    decide
  constructor
  · rw [hfc]
    decide
  · decide

/-- C4 (amended): round-trip.  For all calendar components within range with
a year from 100 to 9999 and every supported zone identifier, the formatted
prompt string (`formatForReminderPrompt` shape, `YYYY-MM-DD HH:MM`) parses
back through `parseReminderPromptValue`/`zonedLocalToUtcMs` to a finite UTC
instant, and formatting that instant back into zone-local parts
(`getZoneParts`) reproduces the original year, month, day, hour and minute.
Years 0-99 are excluded: `MakeFullYear` remaps them to 1900-1999, as the
counterexample shows.  The supported zones are fixed-offset, so the spec's
DST gap/overlap exception is vacuous here. -/
theorem claim4_amended (zoneId : String) (y m d h mi : Int)
    (_hz : zoneId ∈ supportedZoneIds)
    (hy1 : 100 ≤ y) (hy2 : y ≤ 9999) (hm1 : 1 ≤ m) (hm2 : m ≤ 12)
    (hd1 : 1 ≤ d) (hd2 : d ≤ daysInMonth y m)
    (hh1 : 0 ≤ h) (hh2 : h ≤ 23) (hmi1 : 0 ≤ mi) (hmi2 : mi ≤ 59) :
    ∃ t : Int,
      parseReminderPromptValue (zoneFormatterOf zoneId) (formatComponents y m d h mi)
        = .ok (.okVal t) ∧
      getZonePartsE (zoneFormatterOf zoneId) (some t) =
        .ok ⟨y, m, d, h, mi, 0⟩ := by
  obtain ⟨htrim, hcont, hparse⟩ :=
    parse_format y m d h mi (by omega) (by omega) (by omega) (by omega) (by omega)
  obtain ⟨hoff1, hoff2⟩ := zoneOffsetHoursOf_bounds zoneId
  have hd31 : d ≤ 31 := le_trans hd2 (daysInMonth_le_31 y m)
  obtain ⟨hdb1, hdb2⟩ := daysFromCivil_bounds y m d (by omega) hy2 hm1 hm2 hd1 hd31
  have hdlow : -683003 ≤ daysFromCivil y m d :=
    daysFromCivil_ge_year100 y m d hy1 hm1 hm2 hd1
  have hvm : dateUTCraw y (m - 1) d h mi 0
      = daysFromCivil y m d * 86400000 + h * 3600000 + mi * 60000 :=
    dateUTCraw_valid_month y m d h mi hy1 hm1 hm2
  have hBnum : offsetBound = 50400000 := rfl
  have hMnum : timeMax = 8640000000000000 := rfl
  have hA : 100 ≤ (civilFromDays ((dateUTCraw y (m - 1) d h mi 0
      + zoneOffsetHoursOf zoneId * 3600000) / 86400000)).1 := by
    refine civilFromDays_year_ge_100 _ ?_
    rw [hvm]
    omega
  have hB : 100 ≤ (civilFromDays (dateUTCraw y (m - 1) d h mi 0 / 86400000)).1 := by
    refine civilFromDays_year_ge_100 _ ?_
    rw [hvm]
    omega
  have heval := zonedLocalToUtcMs_fixedZone (zoneOffsetHoursOf zoneId * 3600000)
    (replaceFirstChar ' ' 'T' (formatComponents y m d h mi)) y m d h mi
    hparse (by rw [hvm]; omega) (by omega) (by omega) (by omega)
    (by rw [hvm]; omega) (by rw [hvm]; omega) hA hB
  rw [hvm] at heval
  have hfcne : formatComponents y m d h mi ≠ [] := by
    unfold formatComponents
    exact append_ne_nil_left _ _ (jsIntToString_spec y (by omega)).1
  refine ⟨daysFromCivil y m d * 86400000 + h * 3600000 + mi * 60000
    - zoneOffsetHoursOf zoneId * 3600000, ?_, ?_⟩
  · unfold parseReminderPromptValue
    simp only [htrim]
    rw [if_neg hfcne, hcont, if_neg (by decide)]
    unfold zoneFormatterOf
    rw [heval]
  · unfold zoneFormatterOf getZonePartsE
    simp only []
    rw [if_pos ⟨by unfold timeMax; omega, by unfold timeMax; omega⟩]
    unfold fixedZone
    have harr : daysFromCivil y m d * 86400000 + h * 3600000 + mi * 60000
        - zoneOffsetHoursOf zoneId * 3600000 + zoneOffsetHoursOf zoneId * 3600000
        = daysFromCivil y m d * 86400000 + h * 3600000 + mi * 60000 := by ring
    rw [harr, msToZoneParts_of_components y m d h mi hm1 hm2 hd1 hd2 hh1 hh2 hmi1 hmi2]

/-- Witness for C4 (amended): the spec's example components `2025-06-01 09:30`
in `Europe/Moscow`. -/
theorem claim4_witness :
    ∃ t : Int,
      parseReminderPromptValue (zoneFormatterOf "Europe/Moscow")
        (formatComponents 2025 6 1 9 30) = .ok (.okVal t) ∧
      getZonePartsE (zoneFormatterOf "Europe/Moscow") (some t) =
        .ok ⟨2025, 6, 1, 9, 30, 0⟩ :=
  claim4_amended "Europe/Moscow" 2025 6 1 9 30 (by decide) (by decide) (by decide)
    (by decide) (by decide) (by decide) (by decide) (by decide) (by decide)
    (by decide) (by decide)

end TgDaily
